import Mathlib

/-!
# Verification of the chain worker core (`attempted_changes.rs`)

A shallow embedding of `linera-core/src/chain_worker/state/attempted_changes.rs`:
the transactional scope (`ChainWorkerStateWithAttemptedChanges`), the request
handlers it exposes, and the `CrossChainUpdateHelper::select_message_bundles`
selector.  Stateful Rust code becomes explicit state passing on a `View`
(persisted vs. staged chain state); storage writes, certificate checks, saves
and delivery notifications are recorded in an effect trace; fallible code
returns `Except WorkerError`.  Operations implemented outside this file's
source (in `linera-chain` / the worker's `state/mod.rs`), such as
`apply_confirmed_block` or `mark_messages_as_received`, are modelled from the
specification and marked as such in their doc comments.
-/

/-! ## Basic data model -/

abbrev BlockHeight := Nat
abbrev Epoch := Nat
abbrev ChainId := Nat
abbrev Hash := Nat
abbrev BlobId := Nat
abbrev Owner := Nat

/-- An immutable content-addressed byte payload, reduced to its id and size
(the only attributes the worker inspects). -/
structure Blob where
  id : BlobId
  size : Nat
deriving DecidableEq

/-- A committee for one epoch: an id standing for the validator set, plus the
policy limits used by `handle_pending_blob`. -/
structure Committee where
  id : Nat
  maximum_blob_size : Nat
  maximum_published_blobs : Nat
deriving DecidableEq

/-- A height-tagged group of cross-chain messages originating from one chain. -/
structure MessageBundle where
  height : BlockHeight
  messages : Nat
deriving DecidableEq

/-- The outcome of executing a block: the resulting state hash plus an
abstract summary of the produced messages. -/
structure BlockExecutionOutcome where
  state_hash : Hash
  messages : Nat
deriving DecidableEq

/-- A block: header fields plus the parts of the body the worker reads. -/
structure Block where
  chain_id : ChainId
  epoch : Epoch
  height : BlockHeight
  timestamp : Nat
  previous_block_hash : Option Hash
  required_blob_ids : List BlobId
  created_blobs : List Blob
  published_blob_ids : List BlobId
  events : List (Nat × Nat)
  incoming_bundles : List MessageBundle
  message_recipients : List ChainId
  outcome : BlockExecutionOutcome
deriving DecidableEq

/-- A certificate for a confirmed (finalized) block.  `signed` lists the ids
of the committees whose signature check on this certificate succeeds. -/
structure ConfirmedBlockCertificate where
  block : Block
  hash : Hash
  signed : List Nat
deriving DecidableEq

/-- A certificate for a validated block. -/
structure ValidatedBlockCertificate where
  block : Block
  round : Nat
  hash : Hash
  signed : List Nat
deriving DecidableEq

/-- A certificate for a leader timeout. -/
structure TimeoutCertificate where
  chain_id : ChainId
  height : BlockHeight
  epoch : Epoch
  round : Nat
  signed : List Nat
deriving DecidableEq

def ConfirmedBlockCertificate.check (c : ConfirmedBlockCertificate) (com : Committee) : Bool :=
  c.signed.contains com.id

def ValidatedBlockCertificate.check (c : ValidatedBlockCertificate) (com : Committee) : Bool :=
  c.signed.contains com.id

def TimeoutCertificate.check (c : TimeoutCertificate) (com : Committee) : Bool :=
  c.signed.contains com.id

/-- The `(next_block_height, block_hash)` frontier of a chain. -/
structure TipState where
  next_block_height : BlockHeight
  block_hash : Option Hash
deriving DecidableEq

/-- Modelled from the spec: `TipState::already_validated_block` — whether the
chain has already committed a block at the given height. -/
def TipState.already_validated_block (t : TipState) (h : BlockHeight) : Bool :=
  h < t.next_block_height

/-- Modelled from the spec: a `PendingBlobsView` — a partial blob set for an
in-progress proposal or validation: a round, whether it came from a validated
certificate, and one maybe-filled slot per expected blob id. -/
structure PendingBlobs where
  validated : Bool
  round : Nat
  pending_blobs : List (BlobId × Option Blob)
deriving DecidableEq

def emptyPendingBlobs : PendingBlobs := ⟨false, 0, []⟩

/-- Modelled from the spec: `PendingBlobsView::maybe_insert` — accepts the
blob exactly when its id is one of the expected slots, filling that slot. -/
def PendingBlobs.maybe_insert (p : PendingBlobs) (b : Blob) : PendingBlobs × Bool :=
  if (p.pending_blobs.map Prod.fst).contains b.id then
    ({ p with pending_blobs :=
        p.pending_blobs.map fun s => if s.1 = b.id then (s.1, some b) else s }, true)
  else (p, false)

/-- Modelled from the spec: `PendingBlobsView::update` — records the partial
blob set for the given round. -/
def PendingBlobs.update (validated : Bool) (round : Nat)
    (maybe : List (BlobId × Option Blob)) : PendingBlobs :=
  ⟨validated, round, maybe⟩

/-- Modelled from the spec: the consensus manager state, reduced to the
current round and the pending vote (at most one vote per height/round). -/
structure ConsensusManager where
  current_round : Nat
  pending_vote : Option Hash
deriving DecidableEq

/-- Modelled from the spec: `check_validated_block` returns `Skip` when the
manager state is already past that certificate's round (no re-vote). -/
inductive ManagerOutcome where
  | accept
  | skip
deriving DecidableEq

def ConsensusManager.check_validated_block (m : ConsensusManager)
    (cert : ValidatedBlockCertificate) : ManagerOutcome :=
  if cert.round < m.current_round then .skip else .accept

/-- Modelled from the spec: a timeout certificate for round `≥ r` advances an
open round `r` to `r + 1`. -/
def ConsensusManager.handle_timeout_certificate (m : ConsensusManager)
    (cert : TimeoutCertificate) : ConsensusManager :=
  if m.current_round ≤ cert.round then { m with current_round := cert.round + 1 } else m

/-- Modelled from the spec: `create_final_vote` records the final vote for the
validated certificate and moves to its round. -/
def ConsensusManager.create_final_vote (m : ConsensusManager)
    (cert : ValidatedBlockCertificate) : ConsensusManager :=
  { current_round := max m.current_round cert.round, pending_vote := some cert.hash }

/-- Modelled from the spec: `create_vote` records a vote for the proposal. -/
def ConsensusManager.create_vote (m : ConsensusManager) (round : Nat) : ConsensusManager :=
  { m with pending_vote := some round }

/-- Modelled from the spec: `vote_timeout` issues a timeout vote when none is
pending, reporting whether the state changed (and must be saved). -/
def ConsensusManager.vote_timeout (m : ConsensusManager) : ConsensusManager × Bool :=
  match m.pending_vote with
  | none => ({ m with pending_vote := some 0 }, true)
  | some _ => (m, false)

/-- Modelled from the spec: `vote_fallback` issues a fallback vote when none
is pending, reporting whether the state changed. -/
def ConsensusManager.vote_fallback (m : ConsensusManager) : ConsensusManager × Bool :=
  match m.pending_vote with
  | none => ({ m with pending_vote := some 1 }, true)
  | some _ => (m, false)

/-- The persistent per-chain state (`ChainStateView`), with the sub-views the
handlers in `attempted_changes.rs` read and write. -/
structure ChainState where
  chain_id : ChainId
  is_active : Bool
  tip : TipState
  epoch : Epoch
  committees : List (Epoch × Committee)
  manager : ConsensusManager
  pending_validated_blobs : PendingBlobs
  pending_proposed_blobs : List (Owner × PendingBlobs)
  execution_state : Nat
  inboxes : List (ChainId × List MessageBundle)
  outboxes : List (ChainId × List BlockHeight)
  received_log : List (ChainId × BlockHeight)
  received_certificate_trackers : List (Nat × Nat)
  next_to_receive : List (ChainId × BlockHeight)
  anticipated : List (ChainId × BlockHeight)
  open_multi_leader_rounds : Bool
  unskippable_front_seen : Option Nat
  fallback_duration : Nat
deriving DecidableEq

/-- The errors of `WorkerError` that the embedded handlers can produce. -/
inductive WorkerError where
  | InvalidEpoch (chain_epoch : Epoch) (epoch : Epoch)
  | InvalidSignature
  | InvalidBlockChaining
  | IncorrectOutcome (submitted : BlockExecutionOutcome) (computed : BlockExecutionOutcome)
  | BlobsNotFound (ids : List BlobId)
  | EventsNotFound (epoch : Epoch)
  | UnexpectedBlob
  | TooManyPublishedBlobs (max : Nat)
  | BlobTooLarge
  | InvalidCrossChainRequest
  | InactiveChain
  | MissingNetworkDescription
  | ExecutionFailed
deriving DecidableEq

/-- A write issued to the shared key-value storage (outside the chain's own
transactional scope). -/
inductive StorageWrite where
  | blobsAndCertificate (blobs : List Blob) (certHash : Hash)
  | events (evs : List (Nat × Nat))
  | blobStates (ids : List BlobId) (certHash : Hash) (blobsFound : Bool)
deriving DecidableEq

/-- An observable effect of a handler, in order of occurrence. -/
inductive Eff where
  | certCheck (ok : Bool)
  | write (w : StorageWrite)
  | execute
  | save
  | notifyDelivery (h : BlockHeight)
  | registerNotifier (h : BlockHeight)
  | immediateNotify
deriving DecidableEq

/-- The storage writes contained in an effect trace, in order. -/
def storageWrites (tr : List Eff) : List StorageWrite :=
  tr.filterMap fun e => match e with | .write w => some w | _ => none

/-- The worker-level environment: storage contents, the execution-state cache,
the execution runtime's answer for the block at hand, configuration, and the
set of tracked recipient chains. -/
structure Env where
  storage_blobs : List Blob
  storage_committees : List (Epoch × Committee)
  network_description : Option ChainId
  execution_state_cache : List (Hash × Nat)
  exec_result : Except WorkerError (BlockExecutionOutcome × Nat)
  local_time : Nat
  allow_inactive_chains : Bool
  allow_messages_from_deprecated_epochs : Bool
  tracked_chains : List ChainId
  chain_description_available : Bool

/-- The transactional view of `ChainStateView`: the persisted copy in storage
and the staged in-memory copy the handler mutates. -/
structure View where
  persisted : ChainState
  staged : ChainState
deriving DecidableEq

/-- Stage a mutation: only the in-memory copy changes. -/
def View.mutate (v : View) (f : ChainState → ChainState) : View :=
  { v with staged := f v.staged }

/-- `save`: flush the staged changes to storage atomically. -/
def View.save (v : View) : View :=
  { persisted := v.staged, staged := v.staged }

/-- The result of running one handler body: its return value, the view at
exit, whether `save` succeeded (the scope's `succeeded` flag), and the effect
trace. -/
structure HOut (α : Type) where
  res : Except WorkerError α
  view : View
  succeeded : Bool
  trace : List Eff

/-- `Drop for ChainWorkerStateWithAttemptedChanges`: if the scope did not
succeed, roll the staged changes back to the persisted state. -/
def dropScope {α : Type} (o : HOut α) : View :=
  if o.succeeded then o.view else { persisted := o.view.persisted, staged := o.view.persisted }

/-! ## Chain operations used by the handlers

Operations implemented in `linera-chain` or the worker's `state/mod.rs` (not
part of the source file under verification); each is modelled from the spec. -/

/-- Association-list lookup for committees, outboxes, etc. -/
def alistLookup {β : Type} (l : List (Nat × β)) (k : Nat) : Option β :=
  (l.find? fun p => p.1 = k).map Prod.snd

/-- Modelled from the spec: `ensure_is_active` — an active chain is one whose
genesis block has been processed; activation succeeds when the chain
description blob is available, and the chain is marked active. -/
def ensureIsActive (env : Env) (c : ChainState) : Except WorkerError ChainState :=
  if c.is_active then .ok c
  else if env.chain_description_available then .ok { c with is_active := true }
  else .error .InactiveChain

/-- Modelled from the spec: `current_committee` — the committee for the
chain's current epoch; the chain is unusable without one. -/
def currentCommittee (c : ChainState) : Except WorkerError (Epoch × Committee) :=
  match alistLookup c.committees c.epoch with
  | some com => .ok (c.epoch, com)
  | none => .error .InactiveChain

/-- `check_block_epoch` (from `chain_worker/state/mod.rs`): the block's epoch
must equal the chain's active epoch. -/
def checkBlockEpoch (chainEpoch : Epoch) (blockEpoch : Epoch) : Except WorkerError Unit :=
  if blockEpoch = chainEpoch then .ok () else .error (.InvalidEpoch chainEpoch blockEpoch)

/-- The blobs held in the chain-local pending blob sets. -/
def chainLocalBlobs (c : ChainState) : List Blob :=
  (c.pending_validated_blobs.pending_blobs.filterMap Prod.snd) ++
    ((c.pending_proposed_blobs.map fun p => p.2.pending_blobs.filterMap Prod.snd).flatten)

/-- Modelled from the spec: blob resolution — a required blob is found among
the blobs created in the block, the chain-local pending sets, or storage. -/
def resolveBlob (env : Env) (c : ChainState) (created : List Blob) (id : BlobId) : Option Blob :=
  match created.find? fun b => b.id = id with
  | some b => some b
  | none =>
    match (chainLocalBlobs c).find? fun b => b.id = id with
    | some b => some b
    | none => env.storage_blobs.find? fun b => b.id = id

/-- Modelled from the spec: `maybe_get_required_blobs` — one maybe-filled slot
per required blob id. -/
def maybeGetRequiredBlobs (env : Env) (c : ChainState) (created : List Blob)
    (ids : List BlobId) : List (BlobId × Option Blob) :=
  ids.map fun id => (id, resolveBlob env c created id)

/-- `missing_blob_ids` (from `chain_worker/state/mod.rs`): the ids whose slots
are unfilled. -/
def missingBlobIds (maybe : List (BlobId × Option Blob)) : List BlobId :=
  (maybe.filter fun p => p.2.isNone).map Prod.fst

/-- Modelled from the spec: `get_required_blobs` — resolves every required
blob or fails with `BlobsNotFound` listing the missing ids. -/
def getRequiredBlobs (env : Env) (c : ChainState) (created : List Blob)
    (ids : List BlobId) : Except WorkerError (List Blob) :=
  let maybe := maybeGetRequiredBlobs env c created ids
  let missing := missingBlobIds maybe
  if missing.isEmpty then .ok (maybe.filterMap Prod.snd) else .error (.BlobsNotFound missing)

/-- Add one block height to the outbox of each of the given recipients. -/
def addToOutboxes (obs : List (ChainId × List BlockHeight)) (recipients : List ChainId)
    (h : BlockHeight) : List (ChainId × List BlockHeight) :=
  recipients.foldl (fun acc r =>
    if (acc.map Prod.fst).contains r then
      acc.map fun p => if p.1 = r then (p.1, p.2 ++ [h]) else p
    else acc ++ [(r, [h])]) obs

/-- Modelled from the spec: `preprocess_block` — update the outboxes for the
block's outgoing messages only; the tip and the rest of the state are
untouched. -/
def preprocessBlock (c : ChainState) (b : Block) : ChainState :=
  { c with outboxes := addToOutboxes c.outboxes b.message_recipients b.height }

/-- Modelled from the spec: `apply_confirmed_block` — advance the tip to the
block's height + 1 with the confirmed block's hash, clear the pending blob
sets, and add the block's outgoing messages to the outboxes. -/
def applyConfirmedBlock (c : ChainState) (cert : ConfirmedBlockCertificate) : ChainState :=
  { c with
    tip := ⟨cert.block.height + 1, some cert.hash⟩
    pending_validated_blobs := emptyPendingBlobs
    pending_proposed_blobs := []
    outboxes := addToOutboxes c.outboxes cert.block.message_recipients cert.block.height }

/-- Modelled from the spec: `remove_bundles_from_inboxes` — the block's
incoming bundles are consumed from the inboxes. -/
def removeBundlesFromInboxes (c : ChainState) (b : Block) : ChainState :=
  { c with inboxes := c.inboxes.map fun p =>
      (p.1, p.2.filter fun bd => ¬ b.incoming_bundles.contains bd) }

/-- Modelled from the spec: `receive_message_bundle` — stage the bundle's
messages into the inbox from `origin`, advance the next height to receive and
optionally extend the received log. -/
def receiveMessageBundle (c : ChainState) (origin : ChainId) (bundle : MessageBundle)
    (addToReceivedLog : Bool) : ChainState :=
  { c with
    inboxes :=
      if (c.inboxes.map Prod.fst).contains origin then
        c.inboxes.map fun p => if p.1 = origin then (p.1, p.2 ++ [bundle]) else p
      else c.inboxes ++ [(origin, [bundle])]
    next_to_receive :=
      if (c.next_to_receive.map Prod.fst).contains origin then
        c.next_to_receive.map fun p =>
          if p.1 = origin then (p.1, bundle.height + 1) else p
      else c.next_to_receive ++ [(origin, bundle.height + 1)]
    received_log :=
      if addToReceivedLog then c.received_log ++ [(origin, bundle.height)] else c.received_log }

/-- Modelled from the spec: `next_block_height_to_receive` for an origin. -/
def nextBlockHeightToReceive (c : ChainState) (origin : ChainId) : BlockHeight :=
  (alistLookup c.next_to_receive origin).getD 0

/-- Modelled from the spec: `last_anticipated_block_height` for an origin. -/
def lastAnticipatedBlockHeight (c : ChainState) (origin : ChainId) : Option BlockHeight :=
  alistLookup c.anticipated origin

/-- The heights of undelivered messages in the outbox for one recipient. -/
def outboxOf (obs : List (ChainId × List BlockHeight)) (r : ChainId) : List BlockHeight :=
  (alistLookup obs r).getD []

/-- Modelled from the spec: `mark_messages_as_received` — marks the outbox
entries to `recipient` up to `latest_height` as delivered (removing them),
returning whether the recipient's outbox is fully delivered up to that
height. -/
def markMessagesAsReceived (c : ChainState) (recipient : ChainId)
    (latest : BlockHeight) : ChainState × Bool :=
  let obs := c.outboxes.map fun p =>
    if p.1 = recipient then (p.1, p.2.filter fun x => latest < x) else p
  ({ c with outboxes := obs }, (outboxOf obs recipient).all fun x => latest < x)

/-- Modelled from the spec:
`all_messages_to_tracked_chains_delivered_up_to` — every tracked recipient
chain's outbox holds no undelivered message at a height up to `latest`. -/
def allMessagesToTrackedChainsDeliveredUpTo (env : Env) (c : ChainState)
    (latest : BlockHeight) : Bool :=
  env.tracked_chains.all fun r => (outboxOf c.outboxes r).all fun x => latest < x

/-- A notification reason broadcast in `NetworkActions`. -/
inductive Reason where
  | NewRound (height : BlockHeight) (round : Nat)
  | NewBlock (height : BlockHeight) (hash : Hash)
deriving DecidableEq

structure NetworkNotice where
  chain_id : ChainId
  reason : Reason
deriving DecidableEq

/-- Outbound cross-chain requests plus notifications to broadcast. -/
structure NetworkActions where
  cross_chain_requests : List (ChainId × List BlockHeight)
  notices : List NetworkNotice
deriving DecidableEq

def emptyActions : NetworkActions := ⟨[], []⟩

/-- Modelled from the spec: `create_network_actions` — one outbound
cross-chain request per outbox with undelivered messages. -/
def createNetworkActions (c : ChainState) : NetworkActions :=
  ⟨c.outboxes.filter fun p => ¬ p.2.isEmpty, []⟩

/-! ## `CrossChainUpdateHelper::select_message_bundles`

Translated from the source (`attempted_changes.rs`, lines 732-787). -/

/-- Helper type for handling cross-chain updates. -/
structure CrossChainUpdateHelper where
  allow_messages_from_deprecated_epochs : Bool
  current_epoch : Epoch
  committees : List (Epoch × Committee)

def CrossChainUpdateHelper.ofConfig (env : Env) (c : ChainState) : CrossChainUpdateHelper :=
  ⟨env.allow_messages_from_deprecated_epochs, c.epoch, c.committees⟩

/-- The Rust `latest_height <= Some(bundle.height)` comparison: `None` is
below every height. -/
def latestLE (o : Option BlockHeight) (h : BlockHeight) : Bool :=
  match o with
  | none => true
  | some x => x ≤ h

/-- The Rust `Some(bundle.height) <= last_anticipated_block_height`
comparison: `Some _` is above `None`. -/
def someLE (h : BlockHeight) (o : Option BlockHeight) : Bool :=
  match o with
  | none => false
  | some a => h ≤ a

/-- Whether a bundle's epoch or height is trusted (`attempted_changes.rs`,
lines 755-759). -/
def bundleTrusted (helper : CrossChainUpdateHelper)
    (lastAnticipated : Option BlockHeight) (epoch : Epoch) (bundle : MessageBundle) : Bool :=
  helper.allow_messages_from_deprecated_epochs ||
    someLE bundle.height lastAnticipated ||
    decide (helper.current_epoch ≤ epoch) ||
    (helper.committees.map Prod.fst).contains epoch

/-- The scanning loop of `select_message_bundles`: checks that heights are
non-decreasing and computes `(skipped_len, trusted_len)`. -/
def selectScan (helper : CrossChainUpdateHelper) (nextHeight : BlockHeight)
    (lastAnticipated : Option BlockHeight) :
    List (Epoch × MessageBundle) → Nat → Option BlockHeight → Nat → Nat →
      Except WorkerError (Nat × Nat)
  | [], _, _, s, t => .ok (s, t)
  | (epoch, bundle) :: rest, i, latest, s, t =>
    if latestLE latest bundle.height then
      selectScan helper nextHeight lastAnticipated rest (i + 1) (some bundle.height)
        (if bundle.height < nextHeight then i + 1 else s)
        (if bundleTrusted helper lastAnticipated epoch bundle then i + 1 else t)
    else .error .InvalidCrossChainRequest

/-- `select_message_bundles`: checks basic invariants and returns the range
of message bundles that are both new and trusted — the slice
`bundles[skipped_len..trusted_len]` when non-empty. -/
def select_message_bundles (helper : CrossChainUpdateHelper) (_origin : ChainId)
    (_recipient : ChainId) (nextHeightToReceive : BlockHeight)
    (lastAnticipated : Option BlockHeight) (bundles : List (Epoch × MessageBundle)) :
    Except WorkerError (List MessageBundle) :=
  match selectScan helper nextHeightToReceive lastAnticipated bundles 0 none 0 0 with
  | .error e => .error e
  | .ok (skippedLen, trustedLen) =>
    if skippedLen < trustedLen then
      .ok ((((bundles.drop skippedLen).take (trustedLen - skippedLen)).map Prod.snd))
    else .ok []

/-! ## Request handlers

Translated from `ChainWorkerStateWithAttemptedChanges` in
`attempted_changes.rs`. -/

/-- Whether an `Except` is a success (`Result::is_ok`). -/
def isOkE {ε α : Type} (e : Except ε α) : Bool :=
  match e with
  | .ok _ => true
  | .error _ => false

/-- Decidable equality for `Except` results, for concrete evaluation. -/
instance {eps alpha : Type} [DecidableEq eps] [DecidableEq alpha] :
    DecidableEq (Except eps alpha) := fun a b =>
  match a, b with
  | .ok x, .ok y =>
    if h : x = y then .isTrue (by rw [h]) else .isFalse (by simp [h])
  | .ok _, .error _ => .isFalse (by simp)
  | .error _, .ok _ => .isFalse (by simp)
  | .error x, .error y =>
    if h : x = y then .isTrue (by rw [h]) else .isFalse (by simp [h])

/-- A block proposal, reduced to the fields `load_proposal_blobs` and
`vote_for_block_proposal` read. -/
structure BlockProposal where
  owner : Owner
  round : Nat
  original_regular : Bool
  required_blob_ids : List BlobId
  published_blob_ids : List BlobId
deriving DecidableEq

/-- Replace or insert the pending-blob entry for one owner. -/
def setProposedEntry (l : List (Owner × PendingBlobs)) (o : Owner) (pb : PendingBlobs) :
    List (Owner × PendingBlobs) :=
  if (l.map Prod.fst).contains o then
    l.map fun p => if p.1 = o then (p.1, pb) else p
  else l ++ [(o, pb)]

/-- `register_delivery_notifier` (lines 482-503): register the sink when an
outbound request still has messages at or below `height`, otherwise fire it
immediately. -/
def registerNotifierEffs (hasNotifier : Bool) (height : BlockHeight)
    (actions : NetworkActions) : List Eff :=
  if hasNotifier then
    if actions.cross_chain_requests.any fun r => r.2.any fun h => h ≤ height then
      [.registerNotifier height]
    else [.immediateNotify]
  else []

/-- `process_timeout` (lines 67-117). -/
def process_timeout (env : Env) (cert : TimeoutCertificate) (v : View) :
    HOut (ChainState × NetworkActions) :=
  match ensureIsActive env v.staged with
  | .error e => ⟨.error e, v, false, []⟩
  | .ok chain0 =>
    let v1 := v.mutate fun _ => chain0
    match currentCommittee chain0 with
    | .error e => ⟨.error e, v1, false, []⟩
    | .ok (chainEpoch, committee) =>
      if cert.epoch = chainEpoch then
        if cert.check committee then
          if chain0.tip.already_validated_block cert.height then
            ⟨.ok (chain0, emptyActions), v1, false, [.certCheck true]⟩
          else
            let oldRound := chain0.manager.current_round
            let m1 := chain0.manager.handle_timeout_certificate cert
            let chain1 := { chain0 with manager := m1 }
            let actions : NetworkActions :=
              if oldRound < m1.current_round then
                ⟨[], [⟨cert.chain_id, .NewRound cert.height m1.current_round⟩]⟩
              else emptyActions
            let v2 := (v1.mutate fun _ => chain1).save
            ⟨.ok (chain1, actions), v2, true, [.certCheck true, .save]⟩
        else ⟨.error .InvalidSignature, v1, false, [.certCheck false]⟩
      else ⟨.error (.InvalidEpoch chainEpoch cert.epoch), v1, false, []⟩

/-- `load_proposal_blobs` (lines 123-166): on missing blobs it records the
partial set in `pending_proposed_blobs[owner]`, saves, and only then fails
with `BlobsNotFound`. -/
def load_proposal_blobs (env : Env) (p : BlockProposal) (v : View) : HOut (List Blob) :=
  let maybe := maybeGetRequiredBlobs env v.staged [] p.required_blob_ids
  let missing := missingBlobIds maybe
  if missing.isEmpty then
    let published := p.published_blob_ids.filterMap fun id =>
      (maybe.find? fun s => s.1 = id).bind Prod.snd
    ⟨.ok published, v, false, []⟩
  else
    let chain0 :=
      if v.staged.open_multi_leader_rounds then
        { v.staged with pending_proposed_blobs := [] }
      else v.staged
    let entry := PendingBlobs.update p.original_regular p.round maybe
    let chain1 := { chain0 with
      pending_proposed_blobs := setProposedEntry chain0.pending_proposed_blobs p.owner entry }
    let v1 := (v.mutate fun _ => chain1).save
    ⟨.error (.BlobsNotFound missing), v1, true, [.save]⟩

/-- `vote_for_block_proposal` (lines 169-200). -/
def vote_for_block_proposal (env : Env) (p : BlockProposal)
    (_outcome : BlockExecutionOutcome) (v : View) : HOut Unit :=
  match getRequiredBlobs env v.staged [] p.required_blob_ids with
  | .error e => ⟨.error e, v, false, []⟩
  | .ok _blobs =>
    let chain1 := { v.staged with manager := v.staged.manager.create_vote p.round }
    let v1 := (v.mutate fun _ => chain1).save
    ⟨.ok (), v1, true, [.save]⟩

/-- `process_validated_block` (lines 203-279). -/
def process_validated_block (env : Env) (cert : ValidatedBlockCertificate) (v : View) :
    HOut (ChainState × NetworkActions × Bool) :=
  match ensureIsActive env v.staged with
  | .error e => ⟨.error e, v, false, []⟩
  | .ok chain0 =>
    let v1 := v.mutate fun _ => chain0
    match currentCommittee chain0 with
    | .error e => ⟨.error e, v1, false, []⟩
    | .ok (epoch, committee) =>
      match checkBlockEpoch epoch cert.block.epoch with
      | .error e => ⟨.error e, v1, false, []⟩
      | .ok () =>
        if cert.check committee then
          if chain0.tip.already_validated_block cert.block.height ||
              (chain0.manager.check_validated_block cert == ManagerOutcome.skip) then
            ⟨.ok (chain0, emptyActions, true), v1, false, [.certCheck true]⟩
          else
            let maybe := maybeGetRequiredBlobs env chain0 cert.block.created_blobs
              cert.block.required_blob_ids
            let missing := missingBlobIds maybe
            if missing.isEmpty then
              let oldRound := chain0.manager.current_round
              let m1 := chain0.manager.create_final_vote cert
              let chain1 := { chain0 with manager := m1 }
              let v2 := (v1.mutate fun _ => chain1).save
              let actions : NetworkActions :=
                if oldRound < m1.current_round then
                  ⟨[], [⟨chain1.chain_id, .NewRound cert.block.height m1.current_round⟩]⟩
                else emptyActions
              ⟨.ok (chain1, actions, false), v2, true, [.certCheck true, .save]⟩
            else
              let chain1 := { chain0 with
                pending_validated_blobs := PendingBlobs.update true cert.round maybe }
              let v2 := (v1.mutate fun _ => chain1).save
              ⟨.error (.BlobsNotFound missing), v2, true, [.certCheck true, .save]⟩
        else ⟨.error .InvalidSignature, v1, false, [.certCheck false]⟩

/-- The re-validation block of `process_confirmed_block` (lines 396-418):
`ensure_is_active`, `current_committee` and `check_block_epoch`. -/
def activeChecks (env : Env) (c : ChainState) (blockEpoch : Epoch) :
    Except WorkerError ChainState :=
  match ensureIsActive env c with
  | .error e => .error e
  | .ok c1 =>
    match currentCommittee c1 with
    | .error e => .error e
    | .ok (epoch, _) =>
      match checkBlockEpoch epoch blockEpoch with
      | .error e => .error e
      | .ok () => .ok c1

/-- Phase (G) of `process_confirmed_block` (lines 444-476): the outcome
comparison, `apply_confirmed_block`, network actions, `NewBlock`
notification, save, and delivery-notifier registration. -/
def confirmCommit (cert : ConfirmedBlockCertificate) (hasNotifier : Bool)
    (preTrace : List Eff) (v : View) (verified : BlockExecutionOutcome) :
    HOut (ChainState × NetworkActions) :=
  if cert.block.outcome = verified then
    let chain1 := applyConfirmedBlock v.staged cert
    let baseActions := createNetworkActions chain1
    let actions := { baseActions with notices :=
        baseActions.notices ++ [⟨cert.block.chain_id, .NewBlock cert.block.height cert.hash⟩] }
    let v1 := (v.mutate fun _ => chain1).save
    ⟨.ok (chain1, actions), v1, true,
      preTrace ++ [.save] ++ registerNotifierEffs hasNotifier cert.block.height actions⟩
  else ⟨.error (.IncorrectOutcome cert.block.outcome verified), v, false, preTrace⟩

/-- Phases (C)-(G) of `process_confirmed_block` (lines 334-476): everything
after the certificate has been verified. -/
def confirmRest (env : Env) (cert : ConfirmedBlockCertificate) (hasNotifier : Bool)
    (v : View) : HOut (ChainState × NetworkActions) :=
  let block := cert.block
  let height := block.height
  let tip := v.staged.tip
  let blobsResult := getRequiredBlobs env v.staged block.created_blobs block.required_blob_ids
  let okWrites :=
    match blobsResult with
    | .ok blobs =>
      [Eff.write (.blobsAndCertificate blobs cert.hash), Eff.write (.events block.events)]
    | .error _ => []
  let preWrites := okWrites ++
    [Eff.write (.blobStates block.required_blob_ids cert.hash (isOkE blobsResult))]
  match blobsResult with
  | .error e => ⟨.error e, v, false, preWrites⟩
  | .ok _blobs =>
    if tip.next_block_height < height then
      let v1 := (v.mutate fun c => preprocessBlock c block).save
      let actions := createNetworkActions v1.staged
      ⟨.ok (v1.staged, actions), v1, true,
        preWrites ++ [.save] ++ registerNotifierEffs hasNotifier height actions⟩
    else
      if tip.block_hash = block.previous_block_hash then
        match activeChecks env v.staged block.epoch with
        | .error e => ⟨.error e, v, false, preWrites⟩
        | .ok chain0 =>
          let v1 := v.mutate fun _ => chain0
          match (if height = 0 then activeChecks env chain0 block.epoch else .ok chain0) with
          | .error e => ⟨.error e, v1, false, preWrites⟩
          | .ok chain1 =>
            let chain2 := removeBundlesFromInboxes chain1 block
            let v2 := v1.mutate fun _ => chain2
            match alistLookup env.execution_state_cache block.outcome.state_hash with
            | some cached =>
              let chain3 := { chain2 with execution_state := cached }
              confirmCommit cert hasNotifier preWrites (v2.mutate fun _ => chain3)
                block.outcome
            | none =>
              match env.exec_result with
              | .error e => ⟨.error e, v2, false, preWrites ++ [.execute]⟩
              | .ok (verified, newState) =>
                let chain3 := { chain2 with execution_state := newState }
                confirmCommit cert hasNotifier (preWrites ++ [.execute])
                  (v2.mutate fun _ => chain3) verified
      else ⟨.error .InvalidBlockChaining, v, false, preWrites⟩

/-- Certificate verification against one located committee (lines 313-332,
including the duplicated `certificate.check`). -/
def confirmWithCommittee (env : Env) (cert : ConfirmedBlockCertificate)
    (hasNotifier : Bool) (committee : Committee) (v : View) :
    HOut (ChainState × NetworkActions) :=
  if cert.check committee then
    let o := confirmRest env cert hasNotifier v
    { o with trace := .certCheck true :: o.trace }
  else ⟨.error .InvalidSignature, v, false, [.certCheck false]⟩

/-- `process_confirmed_block` (lines 282-477). -/
def process_confirmed_block (env : Env) (cert : ConfirmedBlockCertificate)
    (hasNotifier : Bool) (v : View) : HOut (ChainState × NetworkActions) :=
  let block := cert.block
  let height := block.height
  let tip := v.staged.tip
  if height < tip.next_block_height then
    let actions := createNetworkActions v.staged
    ⟨.ok (v.staged, actions), v, false, registerNotifierEffs hasNotifier height actions⟩
  else
    match alistLookup v.staged.committees block.epoch with
    | some committee => confirmWithCommittee env cert hasNotifier committee v
    | none =>
      match alistLookup env.storage_committees block.epoch with
      | some committee => confirmWithCommittee env cert hasNotifier committee v
      | none =>
        match env.network_description with
        | none => ⟨.error .MissingNetworkDescription, v, false, []⟩
        | some _admin => ⟨.error (.EventsNotFound block.epoch), v, false, []⟩

/-- The bundle-staging loop of `process_cross_chain_update` (lines 535-545):
`add_to_received_log` holds when the height differs from the previous
bundle's. -/
def receiveLoop (origin : ChainId) (bundles : List MessageBundle)
    (prev : Option BlockHeight) (c : ChainState) : ChainState :=
  match bundles with
  | [] => c
  | b :: rest =>
    let addLog := prev ≠ some b.height
    receiveLoop origin rest (some b.height) (receiveMessageBundle c origin b addLog)

/-- `process_cross_chain_update` (lines 506-559): on an inactive recipient
with `allow_inactive_chains` off, return `Ok(None)` without saving. -/
def process_cross_chain_update (env : Env) (origin : ChainId)
    (bundles : List (Epoch × MessageBundle)) (v : View) : HOut (Option BlockHeight) :=
  let nextHeight := nextBlockHeightToReceive v.staged origin
  let lastAnticipated := lastAnticipatedBlockHeight v.staged origin
  let helper := CrossChainUpdateHelper.ofConfig env v.staged
  let recipient := v.staged.chain_id
  match select_message_bundles helper origin recipient nextHeight lastAnticipated bundles with
  | .error e => ⟨.error e, v, false, []⟩
  | .ok sel =>
    match sel.getLast? with
    | none => ⟨.ok none, v, false, []⟩
    | some lastBundle =>
      let chain1 := receiveLoop origin sel none v.staged
      let v1 := v.mutate fun _ => chain1
      if !env.allow_inactive_chains && !chain1.is_active then
        ⟨.ok none, v1, false, []⟩
      else ⟨.ok (some lastBundle.height), v1.save, true, [.save]⟩

/-- `confirm_updated_recipient` (lines 562-584): mark, save, then notify when
fully delivered. -/
def confirm_updated_recipient (env : Env) (recipient : ChainId)
    (latest : BlockHeight) (v : View) : HOut Unit :=
  let mr := markMessagesAsReceived v.staged recipient latest
  let fullyDelivered := mr.2 && allMessagesToTrackedChainsDeliveredUpTo env mr.1 latest
  let v1 := (v.mutate fun _ => mr.1).save
  if fullyDelivered then ⟨.ok (), v1, true, [.save, .notifyDelivery latest]⟩
  else ⟨.ok (), v1, true, [.save]⟩

/-- `update_received_certificate_trackers` (lines 586-595). -/
def update_received_certificate_trackers (new_trackers : List (Nat × Nat)) (v : View) :
    HOut Unit :=
  let chain1 := { v.staged with received_certificate_trackers := new_trackers }
  ⟨.ok (), (v.mutate fun _ => chain1).save, true, [.save]⟩

/-- `vote_for_leader_timeout` (lines 598-612): save only when the manager
created a vote. -/
def vote_for_leader_timeout (v : View) : HOut Unit :=
  let vt := v.staged.manager.vote_timeout
  let chain1 := { v.staged with manager := vt.1 }
  let v1 := v.mutate fun _ => chain1
  if vt.2 then ⟨.ok (), v1.save, true, [.save]⟩
  else ⟨.ok (), v1, false, []⟩

/-- `vote_for_fallback` (lines 615-640): vote only when an unskippable bundle
has waited at least the fallback duration. -/
def vote_for_fallback (env : Env) (v : View) : HOut Unit :=
  match v.staged.unskippable_front_seen with
  | none => ⟨.ok (), v, false, []⟩
  | some seen =>
    if v.staged.fallback_duration ≤ env.local_time - seen then
      let vf := v.staged.manager.vote_fallback
      let chain1 := { v.staged with manager := vf.1 }
      let v1 := v.mutate fun _ => chain1
      if vf.2 then ⟨.ok (), v1.save, true, [.save]⟩
      else ⟨.ok (), v1, false, []⟩
    else ⟨.ok (), v, false, []⟩

/-- The per-entry policy check of `handle_pending_blob` (lines 659-669):
non-validated pending sets enforce the active committee's blob-size and
published-blob-count limits. -/
def pendingStepCheck (cq : Except WorkerError (Epoch × Committee)) (blob : Blob)
    (pb : PendingBlobs) : Except WorkerError Unit :=
  if pb.validated then .ok ()
  else
    match cq with
    | .error e => .error e
    | .ok (_, committee) =>
      if committee.maximum_blob_size < blob.size then .error .BlobTooLarge
      else if pb.pending_blobs.length < committee.maximum_published_blobs then .ok ()
      else .error (.TooManyPublishedBlobs committee.maximum_published_blobs)

/-- The entry loop of `handle_pending_blob` (lines 652-672). -/
def pendingLoop (cq : Except WorkerError (Epoch × Committee)) (blob : Blob) :
    List (Owner × PendingBlobs) → Bool →
      Except WorkerError (List (Owner × PendingBlobs) × Bool)
  | [], was => .ok ([], was)
  | (o, pb) :: rest, was =>
    match pendingStepCheck cq blob pb with
    | .error e => .error e
    | .ok () =>
      let ins := pb.maybe_insert blob
      match pendingLoop cq blob rest (was || ins.2) with
      | .error e => .error e
      | .ok (rest1, was1) => .ok ((o, ins.1) :: rest1, was1)

/-- `handle_pending_blob` (lines 642-679). -/
def handle_pending_blob (blob : Blob) (v : View) : HOut ChainState :=
  let pv := v.staged.pending_validated_blobs.maybe_insert blob
  let chain0 := { v.staged with pending_validated_blobs := pv.1 }
  match pendingLoop (currentCommittee chain0) blob chain0.pending_proposed_blobs pv.2 with
  | .error e => ⟨.error e, v.mutate fun _ => chain0, false, []⟩
  | .ok (entries, wasExpected) =>
    let chain1 := { chain0 with pending_proposed_blobs := entries }
    let v1 := v.mutate fun _ => chain1
    if wasExpected then ⟨.ok chain1, v1.save, true, [.save]⟩
    else ⟨.error .UnexpectedBlob, v1, false, []⟩

/-! ## The request surface and the transactional scope -/

/-- One request to the chain worker: a case per handler of
`ChainWorkerStateWithAttemptedChanges`. -/
inductive Request where
  | timeoutReq (cert : TimeoutCertificate)
  | proposalBlobsReq (p : BlockProposal)
  | voteProposalReq (p : BlockProposal) (outcome : BlockExecutionOutcome)
  | validatedReq (cert : ValidatedBlockCertificate)
  | confirmedReq (cert : ConfirmedBlockCertificate) (hasNotifier : Bool)
  | crossChainReq (origin : ChainId) (bundles : List (Epoch × MessageBundle))
  | confirmRecipientReq (recipient : ChainId) (latest : BlockHeight)
  | trackersReq (ts : List (Nat × Nat))
  | leaderTimeoutReq
  | fallbackReq
  | pendingBlobReq (blob : Blob)

/-- Forget a handler's return value, keeping its error, view, success flag
and trace. -/
def HOut.forget {α : Type} (o : HOut α) : HOut Unit :=
  ⟨o.res.map fun _ => (), o.view, o.succeeded, o.trace⟩

/-- Dispatch one request to its handler body. -/
def handleRequest (env : Env) (req : Request) (v : View) : HOut Unit :=
  match req with
  | .timeoutReq cert => (process_timeout env cert v).forget
  | .proposalBlobsReq p => (load_proposal_blobs env p v).forget
  | .voteProposalReq p oc => (vote_for_block_proposal env p oc v).forget
  | .validatedReq cert => (process_validated_block env cert v).forget
  | .confirmedReq cert hn => (process_confirmed_block env cert hn v).forget
  | .crossChainReq o bs => (process_cross_chain_update env o bs v).forget
  | .confirmRecipientReq r h => (confirm_updated_recipient env r h v).forget
  | .trackersReq ts => (update_received_certificate_trackers ts v).forget
  | .leaderTimeoutReq => (vote_for_leader_timeout v).forget
  | .fallbackReq => (vote_for_fallback env v).forget
  | .pendingBlobReq b => (handle_pending_blob b v).forget

/-- Run a request inside the transactional scope: the handler body followed
by the scope's `Drop` (rollback unless `save` succeeded). -/
def runScoped (env : Env) (req : Request) (v : View) : HOut Unit :=
  let o := handleRequest env req v
  { o with view := dropScope o }

/-! ## Concrete fixtures for witnesses and counterexamples -/

/-- A baseline committee. -/
def baseCommittee : Committee := ⟨10, 100, 4⟩

/-- A baseline active chain at tip height 2 whose previous block hash is 7. -/
def baseChain : ChainState where
  chain_id := 1
  is_active := true
  tip := ⟨2, some 7⟩
  epoch := 0
  committees := [(0, baseCommittee)]
  manager := ⟨0, none⟩
  pending_validated_blobs := emptyPendingBlobs
  pending_proposed_blobs := []
  execution_state := 0
  inboxes := []
  outboxes := []
  received_log := []
  received_certificate_trackers := []
  next_to_receive := []
  anticipated := []
  open_multi_leader_rounds := false
  unskippable_front_seen := none
  fallback_duration := 0

/-- A baseline environment with empty storage and a trivial execution
runtime. -/
def baseEnv : Env where
  storage_blobs := []
  storage_committees := []
  network_description := some 0
  execution_state_cache := []
  exec_result := .ok (⟨0, 0⟩, 0)
  local_time := 0
  allow_inactive_chains := false
  allow_messages_from_deprecated_epochs := false
  tracked_chains := []
  chain_description_available := false

/-- A baseline view with no staged changes. -/
def baseView : View := ⟨baseChain, baseChain⟩

/-- A block at a given height and epoch 0 with no blob requirements, chained
on the hash 7. -/
def simpleBlock (h : BlockHeight) : Block where
  chain_id := 1
  epoch := 0
  height := h
  timestamp := 0
  previous_block_hash := some 7
  required_blob_ids := []
  created_blobs := []
  published_blob_ids := []
  events := []
  incoming_bundles := []
  message_recipients := []
  outcome := ⟨5, 0⟩

/-- A certificate for the block at height 1, below the base tip height 2. -/
def c9Cert : ConfirmedBlockCertificate := ⟨simpleBlock 1, 42, [10]⟩

/-- A certificate at the tip height 2 requiring the unavailable blob 7. -/
def c3Cert : ConfirmedBlockCertificate :=
  ⟨{ simpleBlock 2 with required_blob_ids := [7] }, 42, [10]⟩

/-- A certificate at the tip height 2 whose blob requirements resolve. -/
def c3CertOk : ConfirmedBlockCertificate := ⟨simpleBlock 2, 42, [10]⟩

/-- A certificate at the tip height 2 chained on hash 9 instead of 7. -/
def c4Cert : ConfirmedBlockCertificate :=
  ⟨{ simpleBlock 2 with previous_block_hash := some 9 }, 42, [10]⟩

/-- A certificate at height 0, below the base tip height 2: the idempotent
path of `process_confirmed_block`. -/
def c2CexCert : ConfirmedBlockCertificate := ⟨simpleBlock 0, 42, [10]⟩

/-- A certificate at the tip height 2 with no blob requirements. -/
def c2Cert : ConfirmedBlockCertificate := ⟨simpleBlock 2, 42, [10]⟩

/-- An environment whose execution runtime reproduces `simpleBlock`'s
outcome. -/
def c2Env : Env := { baseEnv with exec_result := .ok (⟨5, 0⟩, 9) }

/-- A certificate at the tip height whose outcome state hash 5 is cached. -/
def c10Cert : ConfirmedBlockCertificate := ⟨simpleBlock 2, 42, [10]⟩

/-- An environment caching execution state 77 under the state hash 5, with a
failing execution runtime (which the cache hit must bypass). -/
def c10Env : Env :=
  { baseEnv with
    execution_state_cache := [(5, 77)]
    exec_result := .error .ExecutionFailed }

/-- A validated-block certificate for the already-committed height 1. -/
def c6Cert : ValidatedBlockCertificate := ⟨simpleBlock 1, 0, 55, [10]⟩

/-- Whether any pending blob set — the validated one or any proposed entry —
expects (and would accept) the blob. -/
def wouldAcceptAny (c : ChainState) (b : Blob) : Bool :=
  (c.pending_validated_blobs.maybe_insert b).2 ||
    c.pending_proposed_blobs.any fun p => (p.2.maybe_insert b).2

/-- A chain with one non-validated pending proposal entry under a committee
whose blob-size limit is 1. -/
def c8Chain : ChainState :=
  { baseChain with
    pending_proposed_blobs := [(1, ⟨false, 0, []⟩)]
    committees := [(0, ⟨10, 1, 4⟩)] }

/-- A blob of size 9, over the `c8Chain` committee's size limit. -/
def c8Blob : Blob := ⟨5, 9⟩

def c8View : View := ⟨c8Chain, c8Chain⟩

/-- A chain whose validated pending set expects blob id 5. -/
def c8WChain : ChainState :=
  { baseChain with pending_validated_blobs := ⟨true, 0, [(5, none)]⟩ }

def c8WView : View := ⟨c8WChain, c8WChain⟩

/-- The heights of a bundle list are non-decreasing. -/
def HeightsNonDecreasing (bundles : List (Epoch × MessageBundle)) : Prop :=
  List.Chain' (fun p q => p.2.height ≤ q.2.height) bundles

/-- Executable check that the heights of a bundle list are non-decreasing. -/
def heightsNonDecreasingB : List (Epoch × MessageBundle) → Bool
  | [] => true
  | p :: rest =>
    (match rest.head? with
     | none => true
     | some q => decide (p.2.height ≤ q.2.height)) && heightsNonDecreasingB rest

/-- The trust helper of the spec's cross-chain scenario: committees for
epochs 2 and 3, current epoch 3. -/
def c5Helper : CrossChainUpdateHelper :=
  ⟨false, 3, [(2, ⟨20, 100, 4⟩), (3, ⟨30, 100, 4⟩)]⟩

/-- Bundles with epochs 2, 3, 4 at heights 10, 11, 12. -/
def c5Bundles : List (Epoch × MessageBundle) :=
  [(2, ⟨10, 0⟩), (3, ⟨11, 1⟩), (4, ⟨12, 2⟩)]

/-- A proposal requiring the unavailable blob 7. -/
def c1Prop : BlockProposal := ⟨1, 0, false, [7], []⟩

/-- A blob no pending set expects. -/
def c1WBlob : Blob := ⟨9, 1⟩

/-! ## Helper lemmas -/

/-- The effects emitted by `register_delivery_notifier` are notifier effects
only. -/
theorem mem_registerNotifierEffs {hn : Bool} {h : BlockHeight} {a : NetworkActions}
    {e : Eff} (he : e ∈ registerNotifierEffs hn h a) :
    e = Eff.registerNotifier h ∨ e = Eff.immediateNotify := by
  unfold registerNotifierEffs at he
  split at he
  · split at he <;> simp_all
  · simp_all

/-! ## Claim C9 -/

/-- Claim C9: for a confirmed-block certificate whose block height is
strictly below `tip.next_block_height`, `process_confirmed_block` returns
`Ok` with the current chain info and network actions; it performs no
committee lookup or signature check, writes nothing to storage, does not
save, does not execute, and leaves the view unchanged. -/
theorem c9_already_processed_is_pure (env : Env) (cert : ConfirmedBlockCertificate)
    (hn : Bool) (v : View)
    (h : cert.block.height < v.staged.tip.next_block_height) :
    (process_confirmed_block env cert hn v).res =
        .ok (v.staged, createNetworkActions v.staged) ∧
    (process_confirmed_block env cert hn v).view = v ∧
    (process_confirmed_block env cert hn v).succeeded = false ∧
    (∀ w, Eff.write w ∉ (process_confirmed_block env cert hn v).trace) ∧
    (∀ b, Eff.certCheck b ∉ (process_confirmed_block env cert hn v).trace) ∧
    Eff.execute ∉ (process_confirmed_block env cert hn v).trace ∧
    Eff.save ∉ (process_confirmed_block env cert hn v).trace := by
  unfold process_confirmed_block
  simp only [if_pos h]
  refine ⟨trivial, trivial, trivial, ?_, ?_, ?_, ?_⟩
  · intro w hw
    rcases mem_registerNotifierEffs hw with h1 | h1 <;> exact Eff.noConfusion h1
  · intro b hb
    rcases mem_registerNotifierEffs hb with h1 | h1 <;> exact Eff.noConfusion h1
  · intro hb
    rcases mem_registerNotifierEffs hb with h1 | h1 <;> exact Eff.noConfusion h1
  · intro hb
    rcases mem_registerNotifierEffs hb with h1 | h1 <;> exact Eff.noConfusion h1

/-- Witness for C9 at a concrete input: height 1 against tip height 2. -/
theorem c9_already_processed_is_pure_witness :
    (process_confirmed_block baseEnv c9Cert false baseView).res =
      .ok (baseView.staged, createNetworkActions baseView.staged) ∧
    (process_confirmed_block baseEnv c9Cert false baseView).view = baseView ∧
    Eff.save ∉ (process_confirmed_block baseEnv c9Cert false baseView).trace := by
  have h := c9_already_processed_is_pure baseEnv c9Cert false baseView (by decide)
  exact ⟨h.1, h.2.1, h.2.2.2.2.2.2⟩

/-- `getRequiredBlobs` only fails with `BlobsNotFound`. -/
theorem getRequiredBlobs_error {env : Env} {c : ChainState} {created : List Blob}
    {ids : List BlobId} {e : WorkerError}
    (h : getRequiredBlobs env c created ids = .error e) :
    ∃ missing, e = .BlobsNotFound missing := by
  unfold getRequiredBlobs at h
  by_cases hm : (missingBlobIds (maybeGetRequiredBlobs env c created ids)).isEmpty
  · simp [hm] at h
  · simp [hm] at h
    exact ⟨_, h.symm⟩

/-- `ensureIsActive` only fails with `InactiveChain`, and on success the
result is active, has the same committees and epoch, and re-activating it is
the identity. -/
theorem ensureIsActive_ok {env : Env} {c c1 : ChainState}
    (h : ensureIsActive env c = .ok c1) :
    c1.is_active = true ∧ c1.committees = c.committees ∧ c1.epoch = c.epoch ∧
      ensureIsActive env c1 = .ok c1 := by
  unfold ensureIsActive at h ⊢
  split at h
  · rename_i ha
    injection h with h
    subst h
    simp [ha]
  · split at h
    · injection h with h
      subst h
      simp
    · exact absurd h (by simp)

theorem ensureIsActive_error {env : Env} {c : ChainState} {e : WorkerError}
    (h : ensureIsActive env c = .error e) : e = .InactiveChain := by
  unfold ensureIsActive at h
  split at h
  · exact absurd h (by simp)
  · split at h
    · exact absurd h (by simp)
    · injection h with h
      exact h.symm

theorem currentCommittee_error {c : ChainState} {e : WorkerError}
    (h : currentCommittee c = .error e) : e = .InactiveChain := by
  unfold currentCommittee at h
  split at h
  · exact absurd h (by simp)
  · injection h with h
    exact h.symm

theorem checkBlockEpoch_error {ce be : Epoch} {e : WorkerError}
    (h : checkBlockEpoch ce be = .error e) : ∃ a b, e = .InvalidEpoch a b := by
  unfold checkBlockEpoch at h
  split at h
  · exact absurd h (by simp)
  · injection h with h
    exact ⟨_, _, h.symm⟩

/-- `activeChecks` only fails with `InactiveChain` or `InvalidEpoch`. -/
theorem activeChecks_error {env : Env} {c : ChainState} {be : Epoch} {e : WorkerError}
    (h : activeChecks env c be = .error e) :
    e = .InactiveChain ∨ ∃ a b, e = .InvalidEpoch a b := by
  unfold activeChecks at h
  split at h <;> rename_i heq
  · left
    injection h with h
    rw [← h]
    exact ensureIsActive_error heq
  · split at h <;> rename_i heq2
    · left
      injection h with h
      rw [← h]
      exact currentCommittee_error heq2
    · split at h <;> rename_i heq3
      · right
        injection h with h
        rw [← h]
        exact checkBlockEpoch_error heq3
      · exact absurd h (by simp)

/-- `activeChecks` is idempotent on its own successful result. -/
theorem activeChecks_idem {env : Env} {c c1 : ChainState} {be : Epoch}
    (h : activeChecks env c be = .ok c1) : activeChecks env c1 be = .ok c1 := by
  unfold activeChecks at h
  cases hea : ensureIsActive env c with
  | error e1 =>
    simp only [hea] at h
    exact absurd h (by simp)
  | ok cmid =>
    simp only [hea] at h
    obtain ⟨-, -, -, hself⟩ := ensureIsActive_ok hea
    cases hcc : currentCommittee cmid with
    | error e2 =>
      simp only [hcc] at h
      exact absurd h (by simp)
    | ok pr =>
      obtain ⟨ep, com⟩ := pr
      simp only [hcc] at h
      cases hcb : checkBlockEpoch ep be with
      | error e3 =>
        simp only [hcb] at h
        exact absurd h (by simp)
      | ok u =>
        cases u
        simp only [hcb] at h
        injection h with h
        subst h
        unfold activeChecks
        simp only [hself, hcc, hcb]

/-- When the block is not already processed and the chain knows a committee
for its epoch whose signature check passes, `process_confirmed_block` is the
post-verification phase with the successful check recorded. -/
theorem process_confirmed_block_local (env : Env) (cert : ConfirmedBlockCertificate)
    (hn : Bool) (v : View) (com : Committee)
    (hlt : ¬ cert.block.height < v.staged.tip.next_block_height)
    (hcom : alistLookup v.staged.committees cert.block.epoch = some com)
    (hchk : cert.check com = true) :
    process_confirmed_block env cert hn v =
      { confirmRest env cert hn v with
        trace := Eff.certCheck true :: (confirmRest env cert hn v).trace } := by
  unfold process_confirmed_block confirmWithCommittee
  simp [hlt, hcom, hchk]

/-- When blob resolution fails, phase (C) writes the blob-state record and
propagates the failure without touching the view. -/
theorem confirmRest_blobs_missing (env : Env) (cert : ConfirmedBlockCertificate)
    (hn : Bool) (v : View) (e : WorkerError)
    (hb : getRequiredBlobs env v.staged cert.block.created_blobs
        cert.block.required_blob_ids = .error e) :
    confirmRest env cert hn v =
      ⟨.error e, v, false,
        [Eff.write (.blobStates cert.block.required_blob_ids cert.hash false)]⟩ := by
  unfold confirmRest
  simp [hb, isOkE]

theorem storageWrites_append (a b : List Eff) :
    storageWrites (a ++ b) = storageWrites a ++ storageWrites b := by
  unfold storageWrites
  exact List.filterMap_append a b _

theorem storageWrites_registerNotifierEffs (hn : Bool) (h : BlockHeight)
    (a : NetworkActions) : storageWrites (registerNotifierEffs hn h a) = [] := by
  unfold registerNotifierEffs
  split
  · split <;> rfl
  · rfl

/-- `confirmCommit` issues no storage writes beyond those already in its
prefix trace. -/
theorem confirmCommit_writes (cert : ConfirmedBlockCertificate) (hn : Bool)
    (pre : List Eff) (v : View) (ver : BlockExecutionOutcome) :
    storageWrites (confirmCommit cert hn pre v ver).trace = storageWrites pre := by
  unfold confirmCommit
  split
  · rw [storageWrites_append, storageWrites_append, storageWrites_registerNotifierEffs]
    simp [storageWrites]
  · rfl

/-- When blob resolution succeeds, the storage writes of
`process_confirmed_block`'s post-verification phase are exactly the batch of
blobs and certificate, the events, and the blob-state record, in order. -/
theorem confirmRest_ok_writes (env : Env) (cert : ConfirmedBlockCertificate)
    (hn : Bool) (v : View) (blobs : List Blob)
    (hb : getRequiredBlobs env v.staged cert.block.created_blobs
        cert.block.required_blob_ids = .ok blobs) :
    storageWrites (confirmRest env cert hn v).trace =
      [.blobsAndCertificate blobs cert.hash, .events cert.block.events,
       .blobStates cert.block.required_blob_ids cert.hash true] := by
  unfold confirmRest
  simp only [hb, isOkE]
  repeat' split
  all_goals
    first
      | (rw [confirmCommit_writes]; rfl)
      | (rw [storageWrites_append, storageWrites_append,
          storageWrites_registerNotifierEffs]; rfl)
      | rfl

/-! ## Claim C3 -/

/-- Claim C3: in `process_confirmed_block`, once the certificate is verified,
if the required blobs cannot all be resolved the blob-state record for the
required blob ids (pointing to this certificate) is written to storage before
the `BlobsNotFound` error is returned — it is the only storage write; when
resolution succeeds, the blobs and the certificate are written in one atomic
storage batch, plus the block's emitted events, followed by the blob-state
record. -/
theorem c3_blob_state_writes (env : Env) (cert : ConfirmedBlockCertificate)
    (hn : Bool) (v : View) (com : Committee)
    (hlt : ¬ cert.block.height < v.staged.tip.next_block_height)
    (hcom : alistLookup v.staged.committees cert.block.epoch = some com)
    (hchk : cert.check com = true) :
    (∀ ids,
      getRequiredBlobs env v.staged cert.block.created_blobs
          cert.block.required_blob_ids = .error (.BlobsNotFound ids) →
      (process_confirmed_block env cert hn v).res = .error (.BlobsNotFound ids) ∧
      storageWrites (process_confirmed_block env cert hn v).trace =
        [.blobStates cert.block.required_blob_ids cert.hash false]) ∧
    (∀ blobs,
      getRequiredBlobs env v.staged cert.block.created_blobs
          cert.block.required_blob_ids = .ok blobs →
      storageWrites (process_confirmed_block env cert hn v).trace =
        [.blobsAndCertificate blobs cert.hash, .events cert.block.events,
         .blobStates cert.block.required_blob_ids cert.hash true]) := by
  rw [process_confirmed_block_local env cert hn v com hlt hcom hchk]
  constructor
  · intro ids hb
    rw [confirmRest_blobs_missing env cert hn v _ hb]
    exact ⟨rfl, rfl⟩
  · intro blobs hb
    have h := confirmRest_ok_writes env cert hn v blobs hb
    simpa [storageWrites] using h

/-- Witness for C3 at concrete inputs: a certificate requiring the missing
blob 7 fails with `BlobsNotFound [7]` after the blob-state write, and one
with no requirements produces the three-write sequence. -/
theorem c3_blob_state_writes_witness :
    ((process_confirmed_block baseEnv c3Cert false baseView).res =
        .error (.BlobsNotFound [7]) ∧
      storageWrites (process_confirmed_block baseEnv c3Cert false baseView).trace =
        [.blobStates [7] 42 false]) ∧
    storageWrites (process_confirmed_block baseEnv c3CertOk false baseView).trace =
      [.blobsAndCertificate [] 42, .events [], .blobStates [] 42 true] := by
  have h1 := (c3_blob_state_writes baseEnv c3Cert false baseView baseCommittee
    (by decide) (by decide) (by decide)).1 [7] (by decide)
  have h2 := (c3_blob_state_writes baseEnv c3CertOk false baseView baseCommittee
    (by decide) (by decide) (by decide)).2 [] (by decide)
  exact ⟨h1, h2⟩

/-! ## Claim C4 -/

/-- Claim C4: for a certificate whose block height equals
`tip.next_block_height`, once the certificate is verified and the blobs
resolve, a `previous_block_hash` that differs from `tip.block_hash` makes
`process_confirmed_block` fail with `InvalidBlockChaining`, the view
unchanged and the scope not succeeded (so the block is not applied). -/
theorem c4_invalid_block_chaining (env : Env) (cert : ConfirmedBlockCertificate)
    (hn : Bool) (v : View) (com : Committee) (blobs : List Blob)
    (hcom : alistLookup v.staged.committees cert.block.epoch = some com)
    (hchk : cert.check com = true)
    (heq : v.staged.tip.next_block_height = cert.block.height)
    (hne : v.staged.tip.block_hash ≠ cert.block.previous_block_hash)
    (hb : getRequiredBlobs env v.staged cert.block.created_blobs
        cert.block.required_blob_ids = .ok blobs) :
    (process_confirmed_block env cert hn v).res = .error .InvalidBlockChaining ∧
    (process_confirmed_block env cert hn v).view = v ∧
    (process_confirmed_block env cert hn v).succeeded = false := by
  have hlt : ¬ cert.block.height < v.staged.tip.next_block_height := by
    rw [heq]; exact Nat.lt_irrefl _
  rw [process_confirmed_block_local env cert hn v com hlt hcom hchk]
  have hgap : ¬ v.staged.tip.next_block_height < cert.block.height := by
    rw [heq]; exact Nat.lt_irrefl _
  unfold confirmRest
  simp [hb, hgap, hne]

/-- Witness for C4 at a concrete input: a block at the tip height chained on
hash 9 while the tip records hash 7. -/
theorem c4_invalid_block_chaining_witness :
    (process_confirmed_block baseEnv c4Cert false baseView).res =
        .error .InvalidBlockChaining ∧
    (process_confirmed_block baseEnv c4Cert false baseView).view = baseView := by
  have h := c4_invalid_block_chaining baseEnv c4Cert false baseView baseCommittee []
    (by decide) (by decide) (by decide) (by decide) (by decide)
  exact ⟨h.1, h.2.1⟩

/-! ## Claim C2 -/

/-- The tip written by `apply_confirmed_block`. -/
theorem applyConfirmedBlock_tip (c : ChainState) (cert : ConfirmedBlockCertificate) :
    (applyConfirmedBlock c cert).tip = ⟨cert.block.height + 1, some cert.hash⟩ := rfl

/-- When `confirmCommit` succeeds its final staged state is
`apply_confirmed_block` of its input. -/
theorem confirmCommit_ok_view (cert : ConfirmedBlockCertificate) (hn : Bool)
    (pre : List Eff) (v : View) (ver : BlockExecutionOutcome)
    (hok : isOkE (confirmCommit cert hn pre v ver).res = true) :
    (confirmCommit cert hn pre v ver).view.staged = applyConfirmedBlock v.staged cert := by
  unfold confirmCommit at hok ⊢
  split at hok <;> rename_i hc
  · simp only [if_pos hc]
    rfl
  · simp [isOkE] at hok

/-- When the post-verification phase succeeds on a block at the tip height,
the final tip records `height + 1` and the certificate's hash. -/
theorem confirmRest_ok_tip (env : Env) (cert : ConfirmedBlockCertificate)
    (hn : Bool) (v : View)
    (heq : v.staged.tip.next_block_height = cert.block.height)
    (hok : isOkE (confirmRest env cert hn v).res = true) :
    (confirmRest env cert hn v).view.staged.tip =
      ⟨cert.block.height + 1, some cert.hash⟩ := by
  have hgap : ¬ v.staged.tip.next_block_height < cert.block.height := by
    rw [heq]; exact Nat.lt_irrefl _
  unfold confirmRest at hok ⊢
  cases hb : getRequiredBlobs env v.staged cert.block.created_blobs
      cert.block.required_blob_ids with
  | error e => simp [hb, isOkE] at hok
  | ok blobs =>
    simp only [hb, if_neg hgap] at hok ⊢
    by_cases hch : v.staged.tip.block_hash = cert.block.previous_block_hash
    · simp only [if_pos hch] at hok ⊢
      cases hac : activeChecks env v.staged cert.block.epoch with
      | error e => simp [hac, isOkE] at hok
      | ok chain0 =>
        simp only [hac] at hok ⊢
        cases hac2 : (if cert.block.height = 0 then
            activeChecks env chain0 cert.block.epoch else .ok chain0) with
        | error e => simp [hac2, isOkE] at hok
        | ok chain1 =>
          simp only [hac2] at hok ⊢
          cases hcache : alistLookup env.execution_state_cache
              cert.block.outcome.state_hash with
          | some cached =>
            simp only [hcache] at hok ⊢
            rw [confirmCommit_ok_view _ _ _ _ _ hok, applyConfirmedBlock_tip]
          | none =>
            simp only [hcache] at hok ⊢
            cases hex : env.exec_result with
            | error e => simp [hex, isOkE] at hok
            | ok pr =>
              obtain ⟨ver, st⟩ := pr
              simp only [hex] at hok ⊢
              rw [confirmCommit_ok_view _ _ _ _ _ hok, applyConfirmedBlock_tip]
    · simp [if_neg hch, isOkE] at hok

/-- Claim C2 (amended): for a certificate whose block height equals the
pre-state `tip.next_block_height`, a successful `process_confirmed_block`
leaves the tip at `next_block_height = height + 1` with `block_hash` the
confirmed block's hash. -/
theorem c2_tip_after_commit (env : Env) (cert : ConfirmedBlockCertificate)
    (hn : Bool) (v : View)
    (heq : v.staged.tip.next_block_height = cert.block.height)
    (hok : isOkE (process_confirmed_block env cert hn v).res = true) :
    (process_confirmed_block env cert hn v).view.staged.tip =
      ⟨cert.block.height + 1, some cert.hash⟩ := by
  have hlt : ¬ cert.block.height < v.staged.tip.next_block_height := by
    rw [heq]; exact Nat.lt_irrefl _
  unfold process_confirmed_block confirmWithCommittee at hok ⊢
  simp only [if_neg hlt] at hok ⊢
  cases hcom : alistLookup v.staged.committees cert.block.epoch with
  | some com =>
    simp only [hcom] at hok ⊢
    by_cases hchk : cert.check com = true
    · simp only [hchk, if_true] at hok ⊢
      simp only [isOkE] at hok ⊢
      exact confirmRest_ok_tip env cert hn v heq hok
    · simp [hchk, isOkE] at hok
  | none =>
    simp only [hcom] at hok ⊢
    cases hcom2 : alistLookup env.storage_committees cert.block.epoch with
    | some com =>
      simp only [hcom2] at hok ⊢
      by_cases hchk : cert.check com = true
      · simp only [hchk, if_true] at hok ⊢
        simp only [isOkE] at hok ⊢
        exact confirmRest_ok_tip env cert hn v heq hok
      · simp [hchk, isOkE] at hok
    | none =>
      simp only [hcom2] at hok ⊢
      cases hnd : env.network_description with
      | none => simp [hnd, isOkE] at hok
      | some a => simp [hnd, isOkE] at hok

/-- Counterexample to C2 as stated: a certificate at height 0 against a tip
at height 2 returns `Ok` on the idempotent path, yet the tip is neither
`height + 1` nor the certificate's hash. -/
theorem c2_counterexample :
    isOkE (process_confirmed_block baseEnv c2CexCert false baseView).res = true ∧
    (process_confirmed_block baseEnv c2CexCert false baseView).view.staged.tip ≠
      ⟨c2CexCert.block.height + 1, some c2CexCert.hash⟩ := by
  exact ⟨by decide, by decide⟩

/-- Witness for the amended C2 at a concrete input: committing the block at
the tip height 2 moves the tip to `(3, hash 42)`. -/
theorem c2_tip_after_commit_witness :
    (process_confirmed_block c2Env c2Cert false baseView).view.staged.tip =
      ⟨3, some 42⟩ := by
  exact c2_tip_after_commit c2Env c2Cert false baseView (by decide) (by decide)

/-! ## Claim C10 -/

/-- `apply_confirmed_block` does not change the execution state. -/
theorem applyConfirmedBlock_exec (c : ChainState) (cert : ConfirmedBlockCertificate) :
    (applyConfirmedBlock c cert).execution_state = c.execution_state := rfl

/-- On a cache hit the post-verification phase can never report
`IncorrectOutcome`: the verified outcome is the certificate's own outcome. -/
theorem confirmRest_cache_no_incorrect (env : Env) (cert : ConfirmedBlockCertificate)
    (hn : Bool) (v : View) (cached : Nat)
    (hcache : alistLookup env.execution_state_cache
        cert.block.outcome.state_hash = some cached) :
    ∀ s c, (confirmRest env cert hn v).res ≠ .error (.IncorrectOutcome s c) := by
  intro s c
  unfold confirmRest
  cases hb : getRequiredBlobs env v.staged cert.block.created_blobs
      cert.block.required_blob_ids with
  | error e =>
    simp only [hb]
    obtain ⟨m, rfl⟩ := getRequiredBlobs_error hb
    simp
  | ok blobs =>
    simp only [hb]
    by_cases hgap : v.staged.tip.next_block_height < cert.block.height
    · simp [hgap]
    · simp only [if_neg hgap]
      by_cases hch : v.staged.tip.block_hash = cert.block.previous_block_hash
      · simp only [if_pos hch]
        cases hac : activeChecks env v.staged cert.block.epoch with
        | error e =>
          simp only [hac]
          rcases activeChecks_error hac with h | ⟨a, b, h⟩ <;> subst h <;> simp
        | ok chain0 =>
          simp only [hac]
          cases hac2 : (if cert.block.height = 0 then
              activeChecks env chain0 cert.block.epoch else .ok chain0) with
          | error e =>
            simp only [hac2]
            by_cases h0 : cert.block.height = 0
            · rw [if_pos h0] at hac2
              rcases activeChecks_error hac2 with h | ⟨a, b, h⟩ <;> subst h <;> simp
            · rw [if_neg h0] at hac2
              exact absurd hac2 (by simp)
          | ok chain1 =>
            simp only [hac2, hcache]
            unfold confirmCommit
            simp
      · simp [if_neg hch]

/-- On a cache hit, when the block at the tip height commits successfully the
adopted execution state is the cached one. -/
theorem confirmRest_cache_exec (env : Env) (cert : ConfirmedBlockCertificate)
    (hn : Bool) (v : View) (cached : Nat)
    (hcache : alistLookup env.execution_state_cache
        cert.block.outcome.state_hash = some cached)
    (heq : v.staged.tip.next_block_height = cert.block.height)
    (hok : isOkE (confirmRest env cert hn v).res = true) :
    (confirmRest env cert hn v).view.staged.execution_state = cached := by
  have hgap : ¬ v.staged.tip.next_block_height < cert.block.height := by
    rw [heq]; exact Nat.lt_irrefl _
  unfold confirmRest at hok ⊢
  cases hb : getRequiredBlobs env v.staged cert.block.created_blobs
      cert.block.required_blob_ids with
  | error e => simp [hb, isOkE] at hok
  | ok blobs =>
    simp only [hb, if_neg hgap] at hok ⊢
    by_cases hch : v.staged.tip.block_hash = cert.block.previous_block_hash
    · simp only [if_pos hch] at hok ⊢
      cases hac : activeChecks env v.staged cert.block.epoch with
      | error e => simp [hac, isOkE] at hok
      | ok chain0 =>
        simp only [hac] at hok ⊢
        cases hac2 : (if cert.block.height = 0 then
            activeChecks env chain0 cert.block.epoch else .ok chain0) with
        | error e => simp [hac2, isOkE] at hok
        | ok chain1 =>
          simp only [hac2, hcache] at hok ⊢
          rw [confirmCommit_ok_view _ _ _ _ _ hok, applyConfirmedBlock_exec]
          simp [View.mutate]
    · simp [if_neg hch, isOkE] at hok

/-- Claim C10: when the execution-state cache holds an entry for the
certificate outcome's `state_hash`, the `IncorrectOutcome` branch of
`process_confirmed_block` is unreachable, and a successful commit at the tip
height adopts the cached execution state. -/
theorem c10_cache_hit_adopted (env : Env) (cert : ConfirmedBlockCertificate)
    (hn : Bool) (v : View) (cached : Nat)
    (hcache : alistLookup env.execution_state_cache
        cert.block.outcome.state_hash = some cached) :
    (∀ s c, (process_confirmed_block env cert hn v).res ≠
      .error (.IncorrectOutcome s c)) ∧
    (v.staged.tip.next_block_height = cert.block.height →
      isOkE (process_confirmed_block env cert hn v).res = true →
      (process_confirmed_block env cert hn v).view.staged.execution_state = cached) := by
  unfold process_confirmed_block confirmWithCommittee
  by_cases hlt : cert.block.height < v.staged.tip.next_block_height
  · constructor
    · intro s c
      simp [hlt]
    · intro heq
      rw [heq] at hlt
      exact absurd hlt (Nat.lt_irrefl _)
  · simp only [if_neg hlt]
    cases hcom : alistLookup v.staged.committees cert.block.epoch with
    | some com =>
      by_cases hchk : cert.check com = true
      · simp only [hchk, if_true]
        exact ⟨fun s c => confirmRest_cache_no_incorrect env cert hn v cached hcache s c,
          fun heq hok => confirmRest_cache_exec env cert hn v cached hcache heq hok⟩
      · simp only [hchk]
        constructor
        · intro s c
          simp [hchk]
        · intro heq hok
          simp [hchk, isOkE] at hok
    | none =>
      cases hcom2 : alistLookup env.storage_committees cert.block.epoch with
      | some com =>
        by_cases hchk : cert.check com = true
        · simp only [hchk, if_true]
          exact ⟨fun s c => confirmRest_cache_no_incorrect env cert hn v cached hcache s c,
            fun heq hok => confirmRest_cache_exec env cert hn v cached hcache heq hok⟩
        · simp only [hchk]
          constructor
          · intro s c
            simp [hchk]
          · intro heq hok
            simp [hchk, isOkE] at hok
      | none =>
        cases hnd : env.network_description with
        | none => exact ⟨fun s c => by simp, fun heq hok => by simp [isOkE] at hok⟩
        | some a => exact ⟨fun s c => by simp, fun heq hok => by simp [isOkE] at hok⟩

/-- Witness for C10 at a concrete input: with state 77 cached under hash 5
and a failing execution runtime, the commit succeeds, adopts state 77, and
does not report `IncorrectOutcome`. -/
theorem c10_cache_hit_adopted_witness :
    (process_confirmed_block c10Env c10Cert false baseView).view.staged.execution_state
        = 77 ∧
    (process_confirmed_block c10Env c10Cert false baseView).res ≠
      .error (.IncorrectOutcome ⟨5, 0⟩ ⟨0, 0⟩) := by
  have h := c10_cache_hit_adopted c10Env c10Cert false baseView 77 (by decide)
  exact ⟨h.2 (by decide) (by decide), h.1 _ _⟩

/-! ## Claim C6 -/

/-- An already-active chain passes `ensure_is_active` unchanged. -/
theorem ensureIsActive_active (env : Env) (c : ChainState) (h : c.is_active = true) :
    ensureIsActive env c = .ok c := by
  unfold ensureIsActive
  simp [h]

/-- Claim C6: for a verified validated-block certificate, if the chain has
already committed a block at that height or the consensus manager reports
`Skip`, `process_validated_block` returns the chain info unchanged with the
skip flag set, creates no new vote, does not save, and leaves the view
unmodified. -/
theorem c6_validated_skip (env : Env) (cert : ValidatedBlockCertificate) (v : View)
    (com : Committee)
    (hact : v.staged.is_active = true)
    (hcc : alistLookup v.staged.committees v.staged.epoch = some com)
    (hep : cert.block.epoch = v.staged.epoch)
    (hchk : cert.check com = true)
    (hskip : v.staged.tip.already_validated_block cert.block.height = true ∨
      v.staged.manager.check_validated_block cert = .skip) :
    (process_validated_block env cert v).res = .ok (v.staged, emptyActions, true) ∧
    (process_validated_block env cert v).view = v ∧
    (process_validated_block env cert v).succeeded = false := by
  have hens := ensureIsActive_active env v.staged hact
  have hcc2 : currentCommittee v.staged = .ok (v.staged.epoch, com) := by
    unfold currentCommittee
    simp [hcc]
  have hbe : checkBlockEpoch v.staged.epoch cert.block.epoch = .ok () := by
    unfold checkBlockEpoch
    simp [hep]
  have hskipb : (v.staged.tip.already_validated_block cert.block.height ||
      (v.staged.manager.check_validated_block cert == ManagerOutcome.skip)) = true := by
    rcases hskip with h | h
    · simp [h]
    · simp [h]
  unfold process_validated_block
  simp only [hens, hcc2, hbe, hchk, hskipb, if_true]
  exact ⟨trivial, rfl, trivial⟩

/-- Witness for C6 at a concrete input: a validated certificate at the
already-committed height 1 is skipped with the view untouched. -/
theorem c6_validated_skip_witness :
    (process_validated_block baseEnv c6Cert baseView).res =
        .ok (baseView.staged, emptyActions, true) ∧
    (process_validated_block baseEnv c6Cert baseView).view = baseView := by
  have h := c6_validated_skip baseEnv c6Cert baseView baseCommittee
    (by decide) (by decide) (by decide) (by decide) (Or.inl (by decide))
  exact ⟨h.1, h.2.1⟩

/-! ## Claim C7 -/

/-- After marking, the recipient's outbox holds no undelivered message at a
height up to `latest`: the boolean returned by `mark_messages_as_received` is
true. -/
theorem markMessagesAsReceived_snd (c : ChainState) (r : ChainId)
    (latest : BlockHeight) : (markMessagesAsReceived c r latest).2 = true := by
  unfold markMessagesAsReceived outboxOf alistLookup
  induction c.outboxes with
  | nil => rfl
  | cons p l ih =>
    by_cases hp : p.1 = r
    · simp only [List.map_cons, if_pos hp, List.find?_cons, hp]
      simp [List.all_eq_true, List.mem_filter]
    · simp only [List.map_cons, if_neg hp]
      rw [List.find?_cons_of_neg _ (by simp [hp])]
      simpa using ih

/-- Claim C7: `confirm_updated_recipient` always saves; its whole effect
trace is the save, optionally followed by the delivery notification for
`latest`; and whenever all messages to all tracked recipient chains are
delivered through `latest` after marking, the notification does fire — in
both cases strictly after the save. -/
theorem c7_confirm_recipient_save_notify (env : Env) (recipient : ChainId)
    (latest : BlockHeight) (v : View) :
    (confirm_updated_recipient env recipient latest v).succeeded = true ∧
    ((confirm_updated_recipient env recipient latest v).trace = [Eff.save] ∨
      (confirm_updated_recipient env recipient latest v).trace =
        [Eff.save, Eff.notifyDelivery latest]) ∧
    (allMessagesToTrackedChainsDeliveredUpTo env
        (markMessagesAsReceived v.staged recipient latest).1 latest = true →
      (confirm_updated_recipient env recipient latest v).trace =
        [Eff.save, Eff.notifyDelivery latest]) := by
  unfold confirm_updated_recipient
  by_cases hall : allMessagesToTrackedChainsDeliveredUpTo env
      (markMessagesAsReceived v.staged recipient latest).1 latest = true
  · simp [markMessagesAsReceived_snd, hall]
  · simp [hall]

/-- Witness for C7 at a concrete input: with no tracked chains everything is
delivered, so the save is followed by the notification for height 9. -/
theorem c7_confirm_recipient_save_notify_witness :
    (confirm_updated_recipient baseEnv 3 9 baseView).trace =
      [Eff.save, Eff.notifyDelivery 9] ∧
    (confirm_updated_recipient baseEnv 3 9 baseView).succeeded = true := by
  have h := c7_confirm_recipient_save_notify baseEnv 3 9 baseView
  exact ⟨h.2.2 (by decide), h.1⟩

/-! ## Claim C8 -/

/-- When every entry passes its policy check, the entry loop of
`handle_pending_blob` succeeds and reports acceptance by any entry. -/
theorem pendingLoop_ok (cq : Except WorkerError (Epoch × Committee)) (blob : Blob)
    (l : List (Owner × PendingBlobs)) (was : Bool)
    (hchk : ∀ p ∈ l, pendingStepCheck cq blob p.2 = .ok ()) :
    ∃ l', pendingLoop cq blob l was =
      .ok (l', was || l.any fun p => (p.2.maybe_insert blob).2) := by
  induction l generalizing was with
  | nil => exact ⟨[], by simp [pendingLoop]⟩
  | cons p rest ih =>
    obtain ⟨o, pb⟩ := p
    have h0 := hchk (o, pb) (List.mem_cons_self _ _)
    obtain ⟨l', hl'⟩ := ih (was || (pb.maybe_insert blob).2)
      (fun q hq => hchk q (List.mem_cons_of_mem _ hq))
    refine ⟨(o, (pb.maybe_insert blob).1) :: l', ?_⟩
    unfold pendingLoop
    simp only [h0, hl']
    simp [Bool.or_assoc]

/-- Claim C8 (amended): provided the committee policy checks on the
non-validated pending-proposal entries all pass, `handle_pending_blob` fails
with `UnexpectedBlob` exactly when no pending set accepted the blob, and when
one did the chain state is saved and a response returned. -/
theorem c8_pending_blob_accept (blob : Blob) (v : View)
    (hchk : ∀ p ∈ v.staged.pending_proposed_blobs,
      pendingStepCheck (currentCommittee v.staged) blob p.2 = .ok ()) :
    ((handle_pending_blob blob v).res = .error .UnexpectedBlob ↔
      wouldAcceptAny v.staged blob = false) ∧
    (wouldAcceptAny v.staged blob = true →
      (handle_pending_blob blob v).succeeded = true ∧
      ∃ info, (handle_pending_blob blob v).res = .ok info) := by
  obtain ⟨l', hl'⟩ := pendingLoop_ok (currentCommittee v.staged) blob
    v.staged.pending_proposed_blobs
    (v.staged.pending_validated_blobs.maybe_insert blob).2 hchk
  unfold handle_pending_blob
  have hccr : currentCommittee { v.staged with pending_validated_blobs :=
      (v.staged.pending_validated_blobs.maybe_insert blob).1 } =
      currentCommittee v.staged := rfl
  simp only [hccr, hl']
  unfold wouldAcceptAny
  by_cases hacc : ((v.staged.pending_validated_blobs.maybe_insert blob).2 ||
      v.staged.pending_proposed_blobs.any fun p => (p.2.maybe_insert blob).2) = true
  · simp [hacc]
  · simp only [Bool.not_eq_true] at hacc
    simp [hacc]

/-- Counterexample to C8 as stated: a too-large blob against a non-validated
pending proposal entry fails with `BlobTooLarge`, not `UnexpectedBlob`, even
though no pending set accepted it. -/
theorem c8_counterexample :
    (handle_pending_blob c8Blob c8View).res = .error .BlobTooLarge ∧
    (handle_pending_blob c8Blob c8View).res ≠ .error .UnexpectedBlob ∧
    wouldAcceptAny c8View.staged c8Blob = false := by
  exact ⟨by decide, by decide, by decide⟩

/-- Witness for the amended C8 at a concrete input: the validated pending set
expects blob id 5, so the upload is accepted and saved. -/
theorem c8_pending_blob_accept_witness :
    (handle_pending_blob c8Blob c8WView).res ≠ .error .UnexpectedBlob ∧
    (handle_pending_blob c8Blob c8WView).succeeded = true := by
  have h := c8_pending_blob_accept c8Blob c8WView (by decide)
  have hw : wouldAcceptAny c8WView.staged c8Blob = true := by decide
  constructor
  · intro hcon
    rw [h.1, hw] at hcon
    exact Bool.noConfusion hcon
  · exact (h.2 hw).1

/-! ## Claim C5 -/

/-- The scanning loop only fails with `InvalidCrossChainRequest`. -/
theorem selectScan_error (helper : CrossChainUpdateHelper) (nextH : BlockHeight)
    (lastA : Option BlockHeight) :
    ∀ (l : List (Epoch × MessageBundle)) i latest s t e,
      selectScan helper nextH lastA l i latest s t = .error e →
      e = .InvalidCrossChainRequest := by
  intro l
  induction l with
  | nil =>
    intro i latest s t e h
    exact absurd h (by simp [selectScan])
  | cons p rest ih =>
    intro i latest s t e h
    obtain ⟨ep, b⟩ := p
    unfold selectScan at h
    split at h
    · exact ih _ _ _ _ _ h
    · injection h with h
      exact h.symm

/-- On a height-monotone input whose head is above the running height, the
scanning loop succeeds. -/
theorem selectScan_ok_of_chain (helper : CrossChainUpdateHelper) (nextH : BlockHeight)
    (lastA : Option BlockHeight) :
    ∀ (l : List (Epoch × MessageBundle)) (i : Nat) (latest : Option BlockHeight)
      (s t : Nat),
      List.Chain' (fun p q => p.2.height ≤ q.2.height) l →
      (∀ x ∈ l.head?, latestLE latest x.2.height = true) →
      ∃ r, selectScan helper nextH lastA l i latest s t = .ok r := by
  intro l
  induction l with
  | nil =>
    intro i latest s t _ _
    exact ⟨(s, t), rfl⟩
  | cons p rest ih =>
    intro i latest s t hch hhead
    obtain ⟨ep, b⟩ := p
    have hlat : latestLE latest b.height = true := hhead (ep, b) rfl
    rw [List.chain'_cons'] at hch
    unfold selectScan
    rw [if_pos hlat]
    apply ih (i + 1) (some b.height) _ _ hch.2
    intro x hx
    have hxh := hch.1 x hx
    simpa [latestLE] using hxh

/-- A successful scan certifies that the input heights are non-decreasing. -/
theorem chain_of_selectScan_ok (helper : CrossChainUpdateHelper) (nextH : BlockHeight)
    (lastA : Option BlockHeight) :
    ∀ (l : List (Epoch × MessageBundle)) i latest s t r,
      selectScan helper nextH lastA l i latest s t = .ok r →
      List.Chain' (fun p q => p.2.height ≤ q.2.height) l := by
  intro l
  induction l with
  | nil => intro i latest s t r _; exact List.chain'_nil
  | cons p rest ih =>
    intro i latest s t r h
    obtain ⟨ep, b⟩ := p
    unfold selectScan at h
    split at h <;> rename_i hcond
    · rw [List.chain'_cons']
      refine ⟨?_, ih _ _ _ _ _ h⟩
      intro y hy
      -- every element of the tail is checked against `some b.height` first
      have : ∀ l2 i2 s2 t2 r2,
          selectScan helper nextH lastA l2 i2 (some b.height) s2 t2 = .ok r2 →
          ∀ x ∈ l2.head?, b.height ≤ x.2.height := by
        intro l2 i2 s2 t2 r2 h2 x hx
        cases l2 with
        | nil => simp at hx
        | cons q rest2 =>
          rw [List.head?_cons, Option.mem_some_iff] at hx
          subst hx
          obtain ⟨eq2, b2⟩ := q
          unfold selectScan at h2
          split at h2 <;> rename_i hcond2
          · simpa [latestLE] using hcond2
          · exact absurd h2 (by simp)
      exact this rest (i + 1) _ _ r h y hy
    · exact absurd h (by simp)

/-- The final `skipped_len` is either the accumulator or beyond the current
index. -/
theorem selectScan_ok_lb (helper : CrossChainUpdateHelper) (nextH : BlockHeight)
    (lastA : Option BlockHeight) :
    ∀ (l : List (Epoch × MessageBundle)) i latest s t s1 t1,
      selectScan helper nextH lastA l i latest s t = .ok (s1, t1) →
      s1 = s ∨ i < s1 := by
  intro l
  induction l with
  | nil =>
    intro i latest s t s1 t1 h
    simp [selectScan] at h
    exact Or.inl h.1.symm
  | cons p rest ih =>
    intro i latest s t s1 t1 h
    obtain ⟨ep, b⟩ := p
    unfold selectScan at h
    split at h <;> rename_i hcond
    · by_cases hlt : b.height < nextH
      · rw [if_pos hlt] at h
        rcases ih _ _ _ _ _ _ h with h1 | h1 <;> (right; omega)
      · rw [if_neg hlt] at h
        rcases ih _ _ _ _ _ _ h with h1 | h1
        · exact Or.inl h1
        · right; omega
    · exact absurd h (by simp)

/-- Every input position at or past the final `skipped_len` holds a bundle at
height at least `next_height_to_receive`. -/
theorem selectScan_ok_ge (helper : CrossChainUpdateHelper) (nextH : BlockHeight)
    (lastA : Option BlockHeight) :
    ∀ (l : List (Epoch × MessageBundle)) i latest s t s1 t1,
      selectScan helper nextH lastA l i latest s t = .ok (s1, t1) →
      ∀ k, (hk : k < l.length) → s1 ≤ i + k → nextH ≤ l[k].2.height := by
  intro l
  induction l with
  | nil =>
    intro i latest s t s1 t1 h k hk
    exact absurd hk (by simp)
  | cons p rest ih =>
    intro i latest s t s1 t1 h k hk hs
    obtain ⟨ep, b⟩ := p
    unfold selectScan at h
    split at h <;> rename_i hcond
    · cases k with
      | zero =>
        simp only [List.getElem_cons_zero]
        by_contra hnot
        push_neg at hnot
        rw [if_pos hnot] at h
        rcases selectScan_ok_lb helper nextH lastA rest (i + 1) (some b.height)
          (i + 1) _ s1 t1 h with h1 | h1 <;> omega
      | succ k2 =>
        simp only [List.getElem_cons_succ]
        exact ih _ _ _ _ _ _ h k2 (by simpa using hk) (by omega)
    · exact absurd h (by simp)

/-- Claim C5: `select_message_bundles` fails with `InvalidCrossChainRequest`
exactly on inputs whose heights decrease somewhere; otherwise its output is a
contiguous sub-slice of the input bundles, in height-monotone order, every
height at least `next_height_to_receive`. -/
theorem c5_select_message_bundles (helper : CrossChainUpdateHelper)
    (origin recipient : ChainId) (nextH : BlockHeight)
    (lastA : Option BlockHeight) (bundles : List (Epoch × MessageBundle)) :
    (¬ HeightsNonDecreasing bundles →
      select_message_bundles helper origin recipient nextH lastA bundles =
        .error .InvalidCrossChainRequest) ∧
    (HeightsNonDecreasing bundles →
      ∃ out,
        select_message_bundles helper origin recipient nextH lastA bundles = .ok out ∧
        (∃ a b, out = ((bundles.map Prod.snd).drop a).take b) ∧
        List.Chain' (fun x y => x.height ≤ y.height) out ∧
        ∀ bd ∈ out, nextH ≤ bd.height) := by
  constructor
  · intro hnd
    cases hscan : selectScan helper nextH lastA bundles 0 none 0 0 with
    | error e =>
      unfold select_message_bundles
      rw [hscan, selectScan_error helper nextH lastA bundles 0 none 0 0 e hscan]
    | ok r =>
      exact absurd (chain_of_selectScan_ok helper nextH lastA bundles 0 none 0 0 r hscan) hnd
  · intro hnd
    obtain ⟨⟨s1, t1⟩, hscan⟩ := selectScan_ok_of_chain helper nextH lastA bundles 0 none
      0 0 hnd (fun x _ => rfl)
    unfold select_message_bundles
    simp only [hscan]
    by_cases hst : s1 < t1
    · rw [if_pos hst]
      refine ⟨_, rfl, ⟨s1, t1 - s1, ?_⟩, ?_, ?_⟩
      · rw [List.map_take, List.map_drop]
      · have hsub : ((bundles.drop s1).take (t1 - s1)).Sublist bundles :=
          (List.take_sublist _ _).trans (List.drop_sublist _ _)
        have hchain : List.Chain' (fun p q => p.2.height ≤ q.2.height)
            ((bundles.drop s1).take (t1 - s1)) := by
          haveI : IsTrans (Epoch × MessageBundle)
              (fun p q => p.2.height ≤ q.2.height) :=
            ⟨fun a b c hab hbc => Nat.le_trans hab hbc⟩
          exact hnd.sublist hsub
        exact (List.chain'_map Prod.snd).mpr hchain
      · intro bd hbd
        rw [List.mem_map] at hbd
        obtain ⟨p, hp, rfl⟩ := hbd
        rw [List.mem_iff_getElem] at hp
        obtain ⟨j, hj, hpj⟩ := hp
        have hj1 : j < (bundles.drop s1).length := by
          have hj2 := hj
          rw [List.length_take] at hj2
          omega
        have hlen : s1 + j < bundles.length := by
          have hj3 := hj1
          rw [List.length_drop] at hj3
          omega
        simp only [List.getElem_take, List.getElem_drop] at hpj
        have hge := selectScan_ok_ge helper nextH lastA bundles 0 none 0 0 s1 t1 hscan
          (s1 + j) hlen (by omega)
        rw [hpj] at hge
        exact hge
    · rw [if_neg hst]
      exact ⟨[], rfl, ⟨0, 0, by simp⟩, List.chain'_nil, by simp⟩

/-- The executable monotonicity check agrees with `HeightsNonDecreasing`. -/
theorem heightsNonDecreasingB_iff (l : List (Epoch × MessageBundle)) :
    heightsNonDecreasingB l = true ↔ HeightsNonDecreasing l := by
  induction l with
  | nil => simp [heightsNonDecreasingB, HeightsNonDecreasing]
  | cons p rest ih =>
    unfold heightsNonDecreasingB HeightsNonDecreasing
    rw [List.chain'_cons', Bool.and_eq_true, ih]
    constructor
    · rintro ⟨h1, h2⟩
      refine ⟨?_, h2⟩
      intro y hy
      cases hr : rest.head? with
      | none =>
        rw [hr] at hy
        simp at hy
      | some q =>
        rw [hr] at hy h1
        rw [Option.mem_some_iff] at hy
        subst hy
        simpa using h1
    · rintro ⟨h1, h2⟩
      refine ⟨?_, h2⟩
      cases hr : rest.head? with
      | none => simp
      | some q =>
        have hq := h1 q (by rw [hr]; rfl)
        simpa using hq

/-- Witness for C5 at the spec's cross-chain scenario: with
`next_height_to_receive = 11` the selector accepts a monotone sub-slice whose
heights are all at least 11. -/
theorem c5_select_message_bundles_witness :
    ∃ out, select_message_bundles c5Helper 7 1 11 none c5Bundles = .ok out ∧
      (∀ bd ∈ out, 11 ≤ bd.height) ∧
      List.Chain' (fun x y => x.height ≤ y.height) out := by
  obtain ⟨out, h1, -, h3, h4⟩ :=
    (c5_select_message_bundles c5Helper 7 1 11 none c5Bundles).2
      ((heightsNonDecreasingB_iff c5Bundles).mp (by decide))
  exact ⟨out, h1, h4, h3⟩

/-! ## Claim C1

The handler bodies only change `persisted` through `save`, which sets the
`succeeded` flag; the scope's `Drop` therefore restores the pre-state
whenever a handler exits without saving. -/

theorem confirmCommit_persisted (cert : ConfirmedBlockCertificate) (hn : Bool)
    (pre : List Eff) (v : View) (ver : BlockExecutionOutcome) :
    (confirmCommit cert hn pre v ver).succeeded = false →
    (confirmCommit cert hn pre v ver).view.persisted = v.persisted := by
  unfold confirmCommit
  split
  · intro hs
    exact absurd hs (by simp)
  · intro hs
    rfl

theorem confirmRest_persisted (env : Env) (cert : ConfirmedBlockCertificate)
    (hn : Bool) (v : View) :
    (confirmRest env cert hn v).succeeded = false →
    (confirmRest env cert hn v).view.persisted = v.persisted := by
  unfold confirmRest
  cases hb : getRequiredBlobs env v.staged cert.block.created_blobs
      cert.block.required_blob_ids with
  | error e => simp [hb]
  | ok blobs =>
    simp only [hb]
    by_cases hgap : v.staged.tip.next_block_height < cert.block.height
    · simp [hgap]
    · simp only [if_neg hgap]
      by_cases hch : v.staged.tip.block_hash = cert.block.previous_block_hash
      · simp only [if_pos hch]
        cases hac : activeChecks env v.staged cert.block.epoch with
        | error e => simp [hac]
        | ok chain0 =>
          simp only [hac]
          cases hac2 : (if cert.block.height = 0 then
              activeChecks env chain0 cert.block.epoch else .ok chain0) with
          | error e => simp [hac2, View.mutate]
          | ok chain1 =>
            simp only [hac2]
            cases hcache : alistLookup env.execution_state_cache
                cert.block.outcome.state_hash with
            | some cached =>
              simp only [hcache]
              intro hs
              rw [confirmCommit_persisted _ _ _ _ _ hs]
              rfl
            | none =>
              simp only [hcache]
              cases hex : env.exec_result with
              | error e => simp [hex, View.mutate]
              | ok pr =>
                obtain ⟨ver, st⟩ := pr
                simp only [hex]
                intro hs
                rw [confirmCommit_persisted _ _ _ _ _ hs]
                rfl
      · simp [if_neg hch]

theorem confirmWithCommittee_persisted (env : Env) (cert : ConfirmedBlockCertificate)
    (hn : Bool) (com : Committee) (v : View) :
    (confirmWithCommittee env cert hn com v).succeeded = false →
    (confirmWithCommittee env cert hn com v).view.persisted = v.persisted := by
  unfold confirmWithCommittee
  split
  · intro hs
    exact confirmRest_persisted env cert hn v hs
  · intro hs
    rfl

theorem process_confirmed_block_persisted (env : Env)
    (cert : ConfirmedBlockCertificate) (hn : Bool) (v : View) :
    (process_confirmed_block env cert hn v).succeeded = false →
    (process_confirmed_block env cert hn v).view.persisted = v.persisted := by
  unfold process_confirmed_block
  by_cases hlt : cert.block.height < v.staged.tip.next_block_height
  · simp [hlt]
  · simp only [if_neg hlt]
    cases hcom : alistLookup v.staged.committees cert.block.epoch with
    | some com =>
      simp only [hcom]
      exact confirmWithCommittee_persisted env cert hn com v
    | none =>
      simp only [hcom]
      cases hcom2 : alistLookup env.storage_committees cert.block.epoch with
      | some com =>
        simp only [hcom2]
        exact confirmWithCommittee_persisted env cert hn com v
      | none =>
        simp only [hcom2]
        cases hnd : env.network_description with
        | none => simp [hnd]
        | some a => simp [hnd]

theorem process_timeout_persisted (env : Env) (cert : TimeoutCertificate) (v : View) :
    (process_timeout env cert v).succeeded = false →
    (process_timeout env cert v).view.persisted = v.persisted := by
  unfold process_timeout
  dsimp only
  repeat' split
  all_goals intro hs
  all_goals first | rfl | exact absurd hs (by simp)

theorem load_proposal_blobs_persisted (env : Env) (p : BlockProposal) (v : View) :
    (load_proposal_blobs env p v).succeeded = false →
    (load_proposal_blobs env p v).view.persisted = v.persisted := by
  unfold load_proposal_blobs
  dsimp only
  repeat' split
  all_goals intro hs
  all_goals first | rfl | exact absurd hs (by simp)

theorem vote_for_block_proposal_persisted (env : Env) (p : BlockProposal)
    (oc : BlockExecutionOutcome) (v : View) :
    (vote_for_block_proposal env p oc v).succeeded = false →
    (vote_for_block_proposal env p oc v).view.persisted = v.persisted := by
  unfold vote_for_block_proposal
  dsimp only
  repeat' split
  all_goals intro hs
  all_goals first | rfl | exact absurd hs (by simp)

theorem process_validated_block_persisted (env : Env)
    (cert : ValidatedBlockCertificate) (v : View) :
    (process_validated_block env cert v).succeeded = false →
    (process_validated_block env cert v).view.persisted = v.persisted := by
  unfold process_validated_block
  dsimp only
  repeat' split
  all_goals intro hs
  all_goals first | rfl | exact absurd hs (by simp)

theorem process_cross_chain_update_persisted (env : Env) (origin : ChainId)
    (bundles : List (Epoch × MessageBundle)) (v : View) :
    (process_cross_chain_update env origin bundles v).succeeded = false →
    (process_cross_chain_update env origin bundles v).view.persisted = v.persisted := by
  unfold process_cross_chain_update
  dsimp only
  repeat' split
  all_goals intro hs
  all_goals first | rfl | exact absurd hs (by simp)

theorem confirm_updated_recipient_persisted (env : Env) (r : ChainId)
    (latest : BlockHeight) (v : View) :
    (confirm_updated_recipient env r latest v).succeeded = false →
    (confirm_updated_recipient env r latest v).view.persisted = v.persisted := by
  unfold confirm_updated_recipient
  dsimp only
  repeat' split
  all_goals intro hs
  all_goals exact absurd hs (by simp)

theorem update_received_certificate_trackers_persisted (ts : List (Nat × Nat))
    (v : View) :
    (update_received_certificate_trackers ts v).succeeded = false →
    (update_received_certificate_trackers ts v).view.persisted = v.persisted := by
  unfold update_received_certificate_trackers
  dsimp only
  intro hs
  exact absurd hs (by simp)

theorem vote_for_leader_timeout_persisted (v : View) :
    (vote_for_leader_timeout v).succeeded = false →
    (vote_for_leader_timeout v).view.persisted = v.persisted := by
  unfold vote_for_leader_timeout
  dsimp only
  repeat' split
  all_goals intro hs
  all_goals first | rfl | exact absurd hs (by simp)

theorem vote_for_fallback_persisted (env : Env) (v : View) :
    (vote_for_fallback env v).succeeded = false →
    (vote_for_fallback env v).view.persisted = v.persisted := by
  unfold vote_for_fallback
  dsimp only
  repeat' split
  all_goals intro hs
  all_goals first | rfl | exact absurd hs (by simp)

theorem handle_pending_blob_persisted (blob : Blob) (v : View) :
    (handle_pending_blob blob v).succeeded = false →
    (handle_pending_blob blob v).view.persisted = v.persisted := by
  unfold handle_pending_blob
  dsimp only
  repeat' split
  all_goals intro hs
  all_goals first | rfl | exact absurd hs (by simp)

/-- No handler body changes the persisted state without setting the scope's
`succeeded` flag through `save`. -/
theorem handleRequest_persisted (env : Env) (req : Request) (v : View) :
    (handleRequest env req v).succeeded = false →
    (handleRequest env req v).view.persisted = v.persisted := by
  cases req with
  | timeoutReq cert =>
    intro hs
    exact process_timeout_persisted env cert v hs
  | proposalBlobsReq p =>
    intro hs
    exact load_proposal_blobs_persisted env p v hs
  | voteProposalReq p oc =>
    intro hs
    exact vote_for_block_proposal_persisted env p oc v hs
  | validatedReq cert =>
    intro hs
    exact process_validated_block_persisted env cert v hs
  | confirmedReq cert hn =>
    intro hs
    exact process_confirmed_block_persisted env cert hn v hs
  | crossChainReq o bs =>
    intro hs
    exact process_cross_chain_update_persisted env o bs v hs
  | confirmRecipientReq r h =>
    intro hs
    exact confirm_updated_recipient_persisted env r h v hs
  | trackersReq ts =>
    intro hs
    exact update_received_certificate_trackers_persisted ts v hs
  | leaderTimeoutReq =>
    intro hs
    exact vote_for_leader_timeout_persisted v hs
  | fallbackReq =>
    intro hs
    exact vote_for_fallback_persisted env v hs
  | pendingBlobReq b =>
    intro hs
    exact handle_pending_blob_persisted b v hs

/-- Claim C1 (amended): for every request handler and chain view with no
leftover staged changes, if the handler returns an error without having
called `save`, the scope's rollback-on-drop restores the view exactly to the
pre-state; the error is surfaced unchanged. -/
theorem c1_rollback_on_unsaved_error (env : Env) (req : Request) (v : View)
    (hv : v.staged = v.persisted) (e : WorkerError)
    (he : (handleRequest env req v).res = .error e)
    (hs : (handleRequest env req v).succeeded = false) :
    (runScoped env req v).view = v ∧ (runScoped env req v).res = .error e := by
  have hp := handleRequest_persisted env req v hs
  unfold runScoped dropScope
  constructor
  · simp only [hs]
    rw [if_neg (by simp)]
    rw [hp]
    cases v
    simp_all
  · exact he

/-- Counterexample to C1 as stated: `load_proposal_blobs` on a proposal with
a missing blob records the pending set, saves, and only then returns
`BlobsNotFound` — an error return after which the post-state differs from the
pre-state. -/
theorem c1_counterexample :
    (runScoped baseEnv (.proposalBlobsReq c1Prop) baseView).res =
      .error (.BlobsNotFound [7]) ∧
    (runScoped baseEnv (.proposalBlobsReq c1Prop) baseView).view ≠ baseView := by
  exact ⟨by decide, by decide⟩

/-- Witness for the amended C1 at a concrete input: an unexpected pending
blob fails with `UnexpectedBlob` without saving, and the scope restores the
pre-state. -/
theorem c1_rollback_on_unsaved_error_witness :
    (runScoped baseEnv (.pendingBlobReq c1WBlob) baseView).view = baseView ∧
    (runScoped baseEnv (.pendingBlobReq c1WBlob) baseView).res =
      .error .UnexpectedBlob := by
  exact c1_rollback_on_unsaved_error baseEnv (.pendingBlobReq c1WBlob) baseView
    (by decide) .UnexpectedBlob (by decide) (by decide)
